import Mathlib

/-!
Shallow embedding of the rockstor performance-monitoring scripts
(`src/rockstor/scripts/perf_monitor.py` and `src/rockstor/scripts/io_stats.py`).

Modelling conventions:
* Python floats are modelled by `ℚ` (the scripts only add, multiply and
  divide parsed decimal numbers, so rational arithmetic is exact).  The
  arithmetic is phrased through the kernel-computable wrappers `qAdd`,
  `qMul`, `qDiv`, `qNeg`, `qSub` (each provably equal to the corresponding
  field operation on `ℚ`) so that concrete runs evaluate by `decide`.
* A raw output line is modelled by its whitespace token list
  (`Line := List String`): both scripts always access a line through
  `line.strip().split()` / `line.split()`, and the prefix / substring regex
  tests used on raw lines are expressed on the token list (the lines these
  scripts consume start at column 0, with single-space separated fields).
* Python exceptions are modelled by `Except PyErr`: an `IndexError` for an
  out-of-range subscript, `ValueError` for an unparsable `float()`/`int()`
  argument, `ZeroDivisionError` for division by zero, `KeyError` for a
  missing dict key, and `SystemExit` for `sys.exit(msg)`.
-/

/-- Python exceptions raised by the modelled code paths. -/
inductive PyErr : Type where
  | indexError : PyErr
  | valueError : PyErr
  | zeroDivisionError : PyErr
  | keyError : PyErr
  | typeError : PyErr
  | systemExit : String → PyErr
  deriving DecidableEq, Repr

deriving instance DecidableEq for Except

/-- A raw output line, as its whitespace-separated token list
(the result of Python's `line.split()`). -/
abbrev Line := List String

/-- Kernel-computable addition on `ℚ` (equal to `+`, see `qAdd_eq`). -/
def qAdd (a b : ℚ) : ℚ :=
  Rat.divInt (a.num * (b.den : ℤ) + b.num * (a.den : ℤ)) ((a.den : ℤ) * (b.den : ℤ))

/-- Kernel-computable multiplication on `ℚ` (equal to `*`, see `qMul_eq`). -/
def qMul (a b : ℚ) : ℚ :=
  mkRat (a.num * b.num) (a.den * b.den)

/-- Kernel-computable division on `ℚ` (equal to `/`, see `qDiv_eq`). -/
def qDiv (a b : ℚ) : ℚ :=
  Rat.divInt (a.num * (b.den : ℤ)) ((a.den : ℤ) * b.num)

/-- Kernel-computable negation on `ℚ` (equal to `-·`, see `qNeg_eq`). -/
def qNeg (a : ℚ) : ℚ :=
  Rat.divInt (-a.num) (a.den : ℤ)

/-- Kernel-computable subtraction on `ℚ` (equal to `-`, see `qSub_eq`). -/
def qSub (a b : ℚ) : ℚ :=
  qAdd a (qNeg b)

@[simp] theorem qAdd_eq (a b : ℚ) : qAdd a b = a + b := by
  have ha : (a.den : ℤ) ≠ 0 := Int.natCast_ne_zero.2 a.den_nz
  have hb : (b.den : ℤ) ≠ 0 := Int.natCast_ne_zero.2 b.den_nz
  rw [qAdd, ← Rat.divInt_add_divInt a.num b.num ha hb,
    Rat.num_divInt_den, Rat.num_divInt_den]

@[simp] theorem qMul_eq (a b : ℚ) : qMul a b = a * b := by
  rw [qMul, ← Rat.mul_eq_mkRat]

@[simp] theorem qDiv_eq (a b : ℚ) : qDiv a b = a / b := by
  rw [qDiv, ← Rat.div_def']

@[simp] theorem qNeg_eq (a : ℚ) : qNeg a = -a := by
  rw [qNeg, ← Rat.neg_def]

@[simp] theorem qSub_eq (a b : ℚ) : qSub a b = a - b := by
  rw [qSub, qAdd_eq, qNeg_eq, sub_eq_add_neg]

/-- Kernel-computable floor of a rational (equal to `⌊·⌋`, see `ratFloor_eq`). -/
def ratFloor (q : ℚ) : ℤ :=
  q.num / (q.den : ℤ)

/-- Kernel-computable ceiling of a rational (equal to `⌈·⌉`, see `ratCeil_eq`). -/
def ratCeil (q : ℚ) : ℤ :=
  -ratFloor (qNeg q)

@[simp] theorem ratFloor_eq (q : ℚ) : ratFloor q = ⌊q⌋ := Rat.floor_def.symm

@[simp] theorem ratCeil_eq (q : ℚ) : ratCeil q = ⌈q⌉ := by
  rw [ratCeil, ratFloor_eq, qNeg_eq, Int.floor_neg, neg_neg]

/-- The rational `1/2`, built by a kernel-computable constructor. -/
def oneHalf : ℚ := Rat.divInt 1 2

theorem oneHalf_eq : oneHalf = 1 / 2 := by
  rw [oneHalf, Rat.divInt_eq_div]; norm_num

/-- Python 2 `int(round(x))`: round half away from zero. -/
def pyRound (q : ℚ) : ℤ :=
  if 0 ≤ q then ratFloor (qAdd q oneHalf) else ratCeil (qSub q oneHalf)

/-- Python `int(x)` on a float: truncation toward zero. -/
def pyTrunc (q : ℚ) : ℤ :=
  if 0 ≤ q then ratFloor q else ratCeil q

theorem pyRound_eq (q : ℚ) :
    pyRound q = if 0 ≤ q then ⌊q + 1/2⌋ else ⌈q - 1/2⌉ := by
  rw [pyRound]
  rcases le_or_lt 0 q with h | h <;>
    simp [h, not_le.2, oneHalf_eq]

theorem pyTrunc_eq (q : ℚ) :
    pyTrunc q = if 0 ≤ q then ⌊q⌋ else ⌈q⌉ := by
  rw [pyTrunc]
  rcases le_or_lt 0 q with h | h <;> simp [h]

/-- `pyRound` of an integer is that integer. -/
theorem pyRound_intCast (z : ℤ) : pyRound (z : ℚ) = z := by
  rw [pyRound_eq]
  rcases le_or_lt 0 (z : ℚ) with h | h
  · rw [if_pos h, add_comm, Int.floor_add_int]
    norm_num
  · rw [if_neg (not_le.2 h), show ((z : ℚ) - 1/2) = (-(1/2) : ℚ) + z by ring,
      Int.ceil_add_int]
    norm_num

/-- Value of a decimal digit character, `none` on a non-digit. -/
def digitVal (c : Char) : Option ℕ :=
  if c.isDigit then some (c.toNat - 48) else none

/-- Accumulate a digit string into a natural number (`none` on a non-digit). -/
def parseDigits : List Char → ℕ → Option ℕ
  | [], acc => some acc
  | c :: cs, acc =>
    match digitVal c with
    | some d => parseDigits cs (acc * 10 + d)
    | none => none

/-- Ten to a natural power, as a rational (kernel-computable). -/
def pow10 (n : ℕ) : ℚ := ((10 ^ n : ℕ) : ℚ)

/-- Python `float(s)` on the unsigned decimal forms the sampled tools emit:
`digits`, `digits.digits`, `digits.`, `.digits`.  `none` models `ValueError`. -/
def pyFloatCore (cs : List Char) : Option ℚ :=
  match cs.splitOn '.' with
  | [intPart] =>
    if intPart.isEmpty then none
    else (parseDigits intPart 0).map (fun n => (n : ℚ))
  | [intPart, fracPart] =>
    if intPart.isEmpty ∧ fracPart.isEmpty then none
    else
      match parseDigits intPart 0, parseDigits fracPart 0 with
      | some n, some f => some (qAdd (n : ℚ) (qDiv (f : ℚ) (pow10 fracPart.length)))
      | _, _ => none
  | _ => none

/-- Python `float(s)` (optional leading sign, simple decimal forms). -/
def pyFloat (s : String) : Option ℚ :=
  match s.data with
  | '-' :: rest => (pyFloatCore rest).map qNeg
  | '+' :: rest => pyFloatCore rest
  | cs => pyFloatCore cs

/-- Python `int(s)` on a string: optional sign plus decimal digits only. -/
def pyIntOfString (s : String) : Option ℤ :=
  match s.data with
  | '-' :: rest =>
    if rest.isEmpty then none else (parseDigits rest 0).map (fun n => -(n : ℤ))
  | '+' :: rest =>
    if rest.isEmpty then none else (parseDigits rest 0).map (fun n => (n : ℤ))
  | cs =>
    if cs.isEmpty then none else (parseDigits cs 0).map (fun n => (n : ℤ))

/-- `o[i]` on a Python list: `IndexError` when out of range. -/
def pyIndex {α : Type} (o : List α) (i : ℕ) : Except PyErr α :=
  match o.get? i with
  | some x => Except.ok x
  | none => Except.error PyErr.indexError

/-- `float(fields[j])`: subscript then parse, raising the matching error. -/
def pyFloatAt (fields : Line) (j : ℕ) : Except PyErr ℚ := do
  let s ← pyIndex fields j
  match pyFloat s with
  | some q => Except.ok q
  | none => Except.error PyErr.valueError

/-- `int(fields[j])`: subscript then integer parse. -/
def pyIntAt (fields : Line) (j : ℕ) : Except PyErr ℤ := do
  let s ← pyIndex fields j
  match pyIntOfString s with
  | some z => Except.ok z
  | none => Except.error PyErr.valueError

example : pyFloat "10" = some 10 := by decide
example : pyFloat "2.5" = some (Rat.divInt 5 2) := by decide
example : pyRound (Rat.divInt 5 2) = 3 := by decide
example : pyRound 30 = 30 := by decide
example : pyTrunc (25 : ℚ) = 25 := by decide
example : pyFloat "-3.25" = some (Rat.divInt (-13) 4) := by decide
example : pyIntOfString "42" = some 42 := by decide

/-!
### Aggregator (`KPIAggregator` class state, perf_monitor.py lines 64-92 and 135-145)

The class keeps one `min_<name>` / `max_<name>` attribute pair per metric,
all initialised to the sentinels `min_sentinel = 100000` / `max_sentinel = 0.0`.
`set_min_max` walks an `attr_map` dict and tightens the pair for each key.
The dynamic `min_<k>` / `max_<k>` attribute lookup is modelled as a function
from the metric name to its `(min, max)` pair.
-/

namespace KPIAggregator

/-- `min_sentinel = 100000` (perf_monitor.py line 66). -/
def min_sentinel : ℚ := 100000

/-- `max_sentinel = 0.0` (perf_monitor.py line 67). -/
def max_sentinel : ℚ := 0

/-- The class-level initial aggregate state: every metric's
`(min_<name>, max_<name>)` pair starts at `(100000, 0.0)`
(perf_monitor.py lines 69-87). -/
def initState : String → ℚ × ℚ := fun _ => (min_sentinel, max_sentinel)

/-- The per-key body of `set_min_max` (perf_monitor.py lines 140-145):
`if (v < cur_min): setattr ...; if (v > cur_max): setattr ...`. -/
def updateMinMax (mm : ℚ × ℚ) (v : ℚ) : ℚ × ℚ :=
  (if v < mm.1 then v else mm.1, if v > mm.2 then v else mm.2)

/-- `set_min_max(attr_map)` (perf_monitor.py lines 135-145): fold the
per-key update over the items of the dict. -/
def set_min_max (st : String → ℚ × ℚ) (attrMap : List (String × ℚ)) :
    String → ℚ × ℚ :=
  attrMap.foldl
    (fun st kv => fun m => if m = kv.1 then updateMinMax (st kv.1) kv.2 else st m)
    st

/-- Feeding a sequence of ticks (one `attr_map` per tick) through the
aggregator. -/
def feed (st : String → ℚ × ℚ) (ticks : List (List (String × ℚ))) :
    String → ℚ × ℚ :=
  ticks.foldl set_min_max st

theorem updateMinMax_min_le (mm : ℚ × ℚ) (v : ℚ) :
    (updateMinMax mm v).1 ≤ mm.1 := by
  rw [updateMinMax]
  split <;> simp_all [le_of_lt]

theorem updateMinMax_le_max (mm : ℚ × ℚ) (v : ℚ) :
    mm.2 ≤ (updateMinMax mm v).2 := by
  rw [updateMinMax]
  dsimp only
  split <;> simp_all [le_of_lt]

theorem updateMinMax_min_le_v (mm : ℚ × ℚ) (v : ℚ) :
    (updateMinMax mm v).1 ≤ v := by
  rw [updateMinMax]
  dsimp only
  split <;> simp_all [le_of_not_lt]

theorem updateMinMax_v_le_max (mm : ℚ × ℚ) (v : ℚ) :
    v ≤ (updateMinMax mm v).2 := by
  rw [updateMinMax]
  dsimp only
  split <;> simp_all [le_of_not_lt]

/-- A key absent from the `attr_map` is untouched by `set_min_max`. -/
theorem set_min_max_not_mem (st : String → ℚ × ℚ) (am : List (String × ℚ))
    (m : String) (h : m ∉ am.map Prod.fst) :
    set_min_max st am m = st m := by
  induction am generalizing st with
  | nil => rfl
  | cons kv rest ih =>
    rw [set_min_max, List.foldl_cons]
    have hm : m ≠ kv.1 := by
      intro hcontra
      exact h (by simp [hcontra])
    rw [show (List.foldl _ _ rest : String → ℚ × ℚ) = set_min_max _ rest from rfl, ih]
    · simp [hm]
    · intro hmem
      exact h (List.mem_cons_of_mem _ hmem)

/-- When the `attr_map` has no duplicate keys (true of a Python dict) and
binds `m` to `v`, `set_min_max` updates `m`'s pair with exactly `v`. -/
theorem set_min_max_lookup (st : String → ℚ × ℚ) (am : List (String × ℚ))
    (m : String) (v : ℚ) (hnd : (am.map Prod.fst).Nodup) (hmem : (m, v) ∈ am) :
    set_min_max st am m = updateMinMax (st m) v := by
  induction am generalizing st with
  | nil => cases hmem
  | cons kv rest ih =>
    rw [set_min_max, List.foldl_cons,
      show (List.foldl _ _ rest : String → ℚ × ℚ) = set_min_max _ rest from rfl]
    rcases List.mem_cons.1 hmem with heq | hrest
    · have hm : m = kv.1 := by rw [← heq]
      have hv : v = kv.2 := by rw [← heq]
      have hnot : m ∉ rest.map Prod.fst := by
        rw [List.map_cons, List.nodup_cons] at hnd
        rw [hm]; exact hnd.1
      rw [set_min_max_not_mem _ _ _ hnot]
      simp [← hm, ← hv]
    · have hm : m ≠ kv.1 := by
        rw [List.map_cons, List.nodup_cons] at hnd
        intro hcontra
        exact hnd.1 (hcontra ▸ List.mem_map_of_mem Prod.fst hrest)
      rw [ih _ (by rw [List.map_cons, List.nodup_cons] at hnd; exact hnd.2) hrest]
      simp [hm]

/-- One `set_min_max` call only tightens every pair. -/
theorem set_min_max_mono (st : String → ℚ × ℚ) (am : List (String × ℚ))
    (m : String) :
    (set_min_max st am m).1 ≤ (st m).1 ∧ (st m).2 ≤ (set_min_max st am m).2 := by
  induction am generalizing st with
  | nil => exact ⟨le_refl _, le_refl _⟩
  | cons kv rest ih =>
    rw [set_min_max, List.foldl_cons,
      show (List.foldl _ _ rest : String → ℚ × ℚ) = set_min_max _ rest from rfl]
    rcases ih (fun m => if m = kv.1 then updateMinMax (st kv.1) kv.2 else st m) with ⟨h1, h2⟩
    by_cases hm : m = kv.1
    · constructor
      · refine le_trans h1 ?_
        simp only [hm, if_pos rfl]
        exact hm ▸ updateMinMax_min_le _ _
      · refine le_trans ?_ h2
        simp only [hm, if_pos rfl]
        exact hm ▸ updateMinMax_le_max _ _
    · constructor
      · refine le_trans h1 ?_
        simp [hm]
      · refine le_trans ?_ h2
        simp [hm]

/-- Feeding any tick list only tightens every pair. -/
theorem feed_mono (st : String → ℚ × ℚ) (ticks : List (List (String × ℚ)))
    (m : String) :
    (feed st ticks m).1 ≤ (st m).1 ∧ (st m).2 ≤ (feed st ticks m).2 := by
  induction ticks generalizing st with
  | nil => exact ⟨le_refl _, le_refl _⟩
  | cons tk rest ih =>
    rw [feed, List.foldl_cons,
      show (List.foldl set_min_max _ rest : String → ℚ × ℚ) = feed _ rest from rfl]
    rcases ih (set_min_max st tk) with ⟨h1, h2⟩
    rcases set_min_max_mono st tk m with ⟨g1, g2⟩
    exact ⟨le_trans h1 g1, le_trans g2 h2⟩

theorem feed_take_succ (st : String → ℚ × ℚ) (ticks : List (List (String × ℚ)))
    (t : ℕ) (ht : t < ticks.length) :
    feed st (ticks.take (t + 1)) = set_min_max (feed st (ticks.take t)) (ticks.get ⟨t, ht⟩) := by
  rw [feed, feed, List.take_succ, List.foldl_append]
  rw [List.getElem?_eq_getElem ht]
  rfl

end KPIAggregator

/-!
### Claims C1 and C2 (aggregator invariants)
-/

open KPIAggregator in
/-- Claim C1: for every metric and every sequence of tick values fed to the
Aggregator, immediately after each update `min <= value <= max` holds, and
across the whole sequence the min bound is non-increasing and the max bound
is non-decreasing. -/
theorem C1_aggregator_bounds_and_monotone
    (ticks : List (List (String × ℚ))) (m : String) :
    (∀ (t : ℕ) (ht : t < ticks.length) (v : ℚ),
        ((ticks.get ⟨t, ht⟩).map Prod.fst).Nodup →
        (m, v) ∈ ticks.get ⟨t, ht⟩ →
        (feed initState (ticks.take (t + 1)) m).1 ≤ v ∧
          v ≤ (feed initState (ticks.take (t + 1)) m).2) ∧
    (∀ t₁ t₂ : ℕ, t₁ ≤ t₂ →
        (feed initState (ticks.take t₂) m).1 ≤ (feed initState (ticks.take t₁) m).1 ∧
          (feed initState (ticks.take t₁) m).2 ≤ (feed initState (ticks.take t₂) m).2) := by
  constructor
  · intro t ht v hnd hmem
    rw [feed_take_succ initState ticks t ht,
      set_min_max_lookup _ _ _ _ hnd hmem]
    exact ⟨updateMinMax_min_le_v _ _, updateMinMax_v_le_max _ _⟩
  · intro t₁ t₂ hle
    have hsplit : ticks.take t₂ = ticks.take t₁ ++ (ticks.take t₂).drop t₁ := by
      conv_lhs => rw [← List.take_append_drop t₁ (ticks.take t₂)]
      rw [List.take_take, min_eq_left hle]
    rw [hsplit, feed, List.foldl_append,
      show ∀ a b, List.foldl set_min_max a b = feed a b from fun _ _ => rfl,
      show ∀ a b, List.foldl set_min_max a b = feed a b from fun _ _ => rfl]
    exact feed_mono _ _ m

/-- Witness for C1 at a concrete run: one tick recording 3 for metric
"iops", checked after the first update and across two prefixes. -/
theorem C1_aggregator_bounds_and_monotone_witness :
    (KPIAggregator.feed KPIAggregator.initState ([[("iops", (3 : ℚ))]].take 1) "iops").1 ≤ 3 ∧
      (3 : ℚ) ≤ (KPIAggregator.feed KPIAggregator.initState ([[("iops", (3 : ℚ))]].take 1) "iops").2 :=
  (C1_aggregator_bounds_and_monotone [[("iops", (3 : ℚ))]] "iops").1 0 (by decide) 3
    (by decide) (by decide)

open KPIAggregator in
/-- Counterexample to claim C2 as stated: the session-uninitialized state is
the sentinel pair `(100000, 0.0)`, so the first recorded value 200000 for
metric "iops" yields `min = 100000 ≠ 200000`: the first update does not set
`min = max = value`. -/
theorem C2_counterexample_first_value_above_min_sentinel :
    set_min_max initState [("iops", (200000 : ℚ))] "iops" = ((100000 : ℚ), (200000 : ℚ)) ∧
      ((100000 : ℚ), (200000 : ℚ)) ≠ ((200000 : ℚ), (200000 : ℚ)) := by
  constructor
  · show updateMinMax (initState "iops") 200000 = _
    decide
  · decide

open KPIAggregator in
/-- Claim C2 as amended: there is no session-uninitialized case; the state
starts at the sentinel pair `(min_sentinel, max_sentinel) = (100000, 0.0)`
and every update (the first one included) sets `min := min(min, v)` and
`max := max(max, v)`.  Consequently the first recorded value `v` sets
`min = max = v` exactly when `0 <= v <= 100000`. -/
theorem C2_amended_sentinel_first_update
    (m : String) (v : ℚ) (mm : ℚ × ℚ) :
    set_min_max initState [(m, v)] m = (min min_sentinel v, max max_sentinel v) ∧
      (max_sentinel ≤ v → v ≤ min_sentinel →
        set_min_max initState [(m, v)] m = (v, v)) ∧
      updateMinMax mm v = (min mm.1 v, max mm.2 v) := by
  have hupd : ∀ p : ℚ × ℚ, updateMinMax p v = (min p.1 v, max p.2 v) := by
    intro p
    rw [updateMinMax]
    rcases lt_or_le v p.1 with h1 | h1 <;> rcases lt_or_le p.2 v with h2 | h2 <;>
      simp [h1, h2, not_lt.2, min_eq_right, min_eq_left, max_eq_left, max_eq_right,
        le_of_lt, h1.le, h2.le]
  have hfirst : set_min_max initState [(m, v)] m = (min min_sentinel v, max max_sentinel v) := by
    show (if m = m then updateMinMax (initState m) v else initState m) = _
    rw [if_pos rfl, initState, hupd]
  refine ⟨hfirst, fun h0 h1 => ?_, hupd mm⟩
  rw [hfirst, min_eq_right h1, max_eq_right h0]

/-- Witness for the amended C2 at a concrete in-range first value. -/
theorem C2_amended_sentinel_first_update_witness :
    KPIAggregator.set_min_max KPIAggregator.initState [("iops", (5 : ℚ))] "iops" = (5, 5) :=
  (C2_amended_sentinel_first_update "iops" 5 (0, 0)).2.1 (by decide) (by decide)

/-!
### Disk I/O extractor (`KPIAggregator.disk_io`, perf_monitor.py lines 94-133)
-/

/-- The six accumulator variables of the `disk_io` row loop. -/
structure DiskAcc where
  iops : ℚ
  tp : ℚ
  req_size : ℚ
  q_len : ℚ
  wait : ℚ
  bw_util : ℚ
  deriving DecidableEq, Repr

/-- The six integers returned by `disk_io` after rounding/averaging. -/
structure DiskIORecord where
  iops : ℤ
  tp : ℤ
  req_size : ℤ
  q_len : ℤ
  wait : ℤ
  bw_util : ℤ
  deriving DecidableEq, Repr

namespace KPIAggregator

/-- Body of one `disk_io` loop iteration (perf_monitor.py lines 98-111):
skip rows without exactly 10 fields, accumulate rows whose device field
(`fields[1]`) is in the pool's device-name filter. -/
def diskRowStep (dnames : List String) (fields : Line) (acc : DiskAcc) :
    Except PyErr DiskAcc :=
  if fields.length = 10 then do
    let dev ← pyIndex fields 1
    if dev ∈ dnames then do
      let f2 ← pyFloatAt fields 2
      let f3 ← pyFloatAt fields 3
      let f4 ← pyFloatAt fields 4
      let f5 ← pyFloatAt fields 5
      let f6 ← pyFloatAt fields 6
      let f7 ← pyFloatAt fields 7
      let f8 ← pyFloatAt fields 8
      Except.ok
        ⟨qAdd acc.iops f2,
         qAdd acc.tp (qMul (qAdd f3 f4) 512),
         qAdd acc.req_size (qMul f5 512),
         qAdd acc.q_len f6,
         qAdd acc.wait f7,
         qAdd acc.bw_util f8⟩
    else Except.ok acc
  else Except.ok acc

/-- `for i in range(*v)` over `o[i]` (perf_monitor.py line 97), recursing on
the number of remaining indices. -/
def disk_ioLoop (dnames : List String) (o : List Line) :
    ℕ → ℕ → DiskAcc → Except PyErr DiskAcc
  | _, 0, acc => Except.ok acc
  | i, n + 1, acc => do
    let fields ← pyIndex o i
    let acc' ← diskRowStep dnames fields acc
    disk_ioLoop dnames o (i + 1) n acc'

/-- The same loop, phrased over the list of visited lines. -/
def diskSlurp (dnames : List String) : List Line → DiskAcc → Except PyErr DiskAcc
  | [], acc => Except.ok acc
  | l :: rest, acc => do
    let acc' ← diskRowStep dnames l acc
    diskSlurp dnames rest acc'

/-- `disk_io(v, o)` (perf_monitor.py lines 94-133): accumulate matching rows,
then round the sums, average `wait` and `bw_util` over `len(dnames)` (a
`ZeroDivisionError` when the device filter is empty), update the aggregate
state and return the six KPI values. -/
def disk_io (dnames : List String) (st : String → ℚ × ℚ) (v : ℕ × ℕ)
    (o : List Line) : Except PyErr ((String → ℚ × ℚ) × DiskIORecord) := do
  let acc ← disk_ioLoop dnames o v.1 (v.2 - v.1) ⟨0, 0, 0, 0, 0, 0⟩
  let iops := pyRound acc.iops
  let tp := pyRound (qDiv acc.tp 1048576)   -- tp / (1024 * 1024)
  let req_size := pyRound (qDiv acc.req_size 1024)
  let q_len := pyRound acc.q_len
  if dnames.length = 0 then Except.error PyErr.zeroDivisionError
  else
    let wait := pyRound (qDiv acc.wait (dnames.length : ℚ))
    let bw_util := pyRound (qDiv acc.bw_util (dnames.length : ℚ))
    let st' := set_min_max st
      [("iops", (iops : ℚ)), ("tp", (tp : ℚ)), ("req_size", (req_size : ℚ)),
       ("q_len", (q_len : ℚ)), ("wait", (wait : ℚ)), ("bw_util", (bw_util : ℚ))]
    Except.ok (st', ⟨iops, tp, req_size, q_len, wait, bw_util⟩)

end KPIAggregator

/-!
### Specification-side description of the Disk I/O derivation (for C3)
-/

/-- Numeric value of token `j` of a row (0 when absent or unparsable; only
used for rows known to parse). -/
def fval (l : Line) (j : ℕ) : ℚ := (pyFloat (l.getD j "")).getD 0

/-- A row counts for the Disk I/O derivation when it has exactly 10 fields
and its device field (`fields[1]`) is in the filter. -/
def diskRowMatch (dnames : List String) (l : Line) : Bool :=
  decide (l.length = 10) &&
    (match l.get? 1 with
     | some d => decide (d ∈ dnames)
     | none => false)

/-- The rows of the section range that the Disk I/O derivation sums over. -/
def diskMatchedRows (dnames : List String) (v : ℕ × ℕ) (o : List Line) :
    List Line :=
  ((o.drop v.1).take (v.2 - v.1)).filter (diskRowMatch dnames)

/-- Fields 2-8 of the row all parse as floats. -/
def diskRowParses (l : Line) : Bool :=
  (List.range 7).all (fun k => (pyFloat (l.getD (k + 2) "")).isSome)

/-- Sum of field `j` over a list of rows. -/
def sumFval (rows : List Line) (j : ℕ) : ℚ :=
  rows.foldr (fun l s => qAdd (fval l j) s) 0

/-- Sum of read+write sectors/s (fields 3 and 4) over a list of rows. -/
def sumRW (rows : List Line) : ℚ :=
  rows.foldr (fun l s => qAdd (qAdd (fval l 3) (fval l 4)) s) 0

/-- The Disk I/O record the specification describes: iops is the summed
ops/s, throughput is the summed sectors/s times 512 bytes converted to MB/s,
request size is the summed sectors/s times 512 bytes converted to KB, queue
length is the summed per-device queue length, and wait and bandwidth
utilization are averaged over the device-filter count. -/
def diskSpecRecord (dnames : List String) (rows : List Line) : DiskIORecord :=
  ⟨pyRound (sumFval rows 2),
   pyRound (qDiv (qMul (sumRW rows) 512) 1048576),
   pyRound (qDiv (qMul (sumFval rows 5) 512) 1024),
   pyRound (sumFval rows 6),
   pyRound (qDiv (sumFval rows 7) (dnames.length : ℚ)),
   pyRound (qDiv (sumFval rows 8) (dnames.length : ℚ))⟩

/-- The `attr_map` dict handed to `set_min_max` by `disk_io`
(perf_monitor.py lines 121-122). -/
def diskBindings (r : DiskIORecord) : List (String × ℚ) :=
  [("iops", (r.iops : ℚ)), ("tp", (r.tp : ℚ)), ("req_size", (r.req_size : ℚ)),
   ("q_len", (r.q_len : ℚ)), ("wait", (r.wait : ℚ)), ("bw_util", (r.bw_util : ℚ))]

theorem sumFval_cons (l : Line) (rows : List Line) (j : ℕ) :
    sumFval (l :: rows) j = fval l j + sumFval rows j := by
  rw [sumFval, List.foldr_cons, qAdd_eq]
  rfl

theorem sumRW_cons (l : Line) (rows : List Line) :
    sumRW (l :: rows) = (fval l 3 + fval l 4) + sumRW rows := by
  rw [sumRW, List.foldr_cons, qAdd_eq, qAdd_eq]
  rfl


theorem exceptBind_ok {α β : Type} (a : α) (f : α → Except PyErr β) :
    (Except.ok a >>= f) = f a := rfl

theorem exceptBind_error {α β : Type} (e : PyErr) (f : α → Except PyErr β) :
    ((Except.error e : Except PyErr α) >>= f) = Except.error e := rfl

theorem pyIndex_ok {α : Type} (o : List α) (i : ℕ) (h : i < o.length) :
    pyIndex o i = Except.ok (o.get ⟨i, h⟩) := by
  rw [pyIndex, List.get?_eq_get h]

theorem pyFloatAt_ok (l : Line) (j : ℕ) (hj : j < l.length)
    (hs : (pyFloat (l.getD j "")).isSome = true) :
    pyFloatAt l j = Except.ok (fval l j) := by
  rw [pyFloatAt, pyIndex_ok l j hj]
  have hg : l.getD j "" = l.get ⟨j, hj⟩ := by
    rw [List.getD, List.get?_eq_get hj]
    rfl
  rcases Option.isSome_iff_exists.1 hs with ⟨q, hq⟩
  rw [hg] at hq
  rw [fval, hg, hq, exceptBind_ok, hq]
  rfl

theorem KPIAggregator.diskRowStep_skip (dnames : List String) (l : Line)
    (acc : DiskAcc) (h : diskRowMatch dnames l = false) :
    KPIAggregator.diskRowStep dnames l acc = Except.ok acc := by
  rw [KPIAggregator.diskRowStep]
  by_cases hl : l.length = 10
  · rw [if_pos hl]
    have h1 : (1 : ℕ) < l.length := by omega
    rw [pyIndex_ok l 1 h1, exceptBind_ok]
    rw [diskRowMatch, List.get?_eq_get h1, decide_eq_true hl, Bool.true_and] at h
    rw [if_neg (of_decide_eq_false h)]
  · rw [if_neg hl]

theorem KPIAggregator.diskRowStep_match (dnames : List String) (l : Line)
    (acc : DiskAcc) (h : diskRowMatch dnames l = true)
    (hp : diskRowParses l = true) :
    KPIAggregator.diskRowStep dnames l acc =
      Except.ok
        ⟨qAdd acc.iops (fval l 2),
         qAdd acc.tp (qMul (qAdd (fval l 3) (fval l 4)) 512),
         qAdd acc.req_size (qMul (fval l 5) 512),
         qAdd acc.q_len (fval l 6),
         qAdd acc.wait (fval l 7),
         qAdd acc.bw_util (fval l 8)⟩ := by
  have hl : l.length = 10 := by
    rw [diskRowMatch, Bool.and_eq_true] at h
    exact of_decide_eq_true h.1
  have h1 : (1 : ℕ) < l.length := by omega
  have hmem : l.get ⟨1, h1⟩ ∈ dnames := by
    rw [diskRowMatch, Bool.and_eq_true, List.get?_eq_get h1] at h
    exact of_decide_eq_true h.2
  have hparse : ∀ j, 2 ≤ j → j ≤ 8 → pyFloatAt l j = Except.ok (fval l j) := by
    intro j h2 h8
    refine pyFloatAt_ok l j (by omega) ?_
    rw [diskRowParses, List.all_eq_true] at hp
    have hj := hp (j - 2) (by rw [List.mem_range]; omega)
    rwa [show j - 2 + 2 = j by omega] at hj
  rw [KPIAggregator.diskRowStep, if_pos hl, pyIndex_ok l 1 h1, exceptBind_ok]
  rw [if_pos hmem]
  rw [hparse 2 (by omega) (by omega), exceptBind_ok,
    hparse 3 (by omega) (by omega), exceptBind_ok,
    hparse 4 (by omega) (by omega), exceptBind_ok,
    hparse 5 (by omega) (by omega), exceptBind_ok,
    hparse 6 (by omega) (by omega), exceptBind_ok,
    hparse 7 (by omega) (by omega), exceptBind_ok,
    hparse 8 (by omega) (by omega), exceptBind_ok]

theorem KPIAggregator.diskSlurp_ok (dnames : List String) (rows : List Line)
    (acc : DiskAcc)
    (hp : ∀ l ∈ rows.filter (diskRowMatch dnames), diskRowParses l = true) :
    KPIAggregator.diskSlurp dnames rows acc =
      Except.ok
        ⟨acc.iops + sumFval (rows.filter (diskRowMatch dnames)) 2,
         acc.tp + 512 * sumRW (rows.filter (diskRowMatch dnames)),
         acc.req_size + 512 * sumFval (rows.filter (diskRowMatch dnames)) 5,
         acc.q_len + sumFval (rows.filter (diskRowMatch dnames)) 6,
         acc.wait + sumFval (rows.filter (diskRowMatch dnames)) 7,
         acc.bw_util + sumFval (rows.filter (diskRowMatch dnames)) 8⟩ := by
  induction rows generalizing acc with
  | nil =>
    rw [List.filter_nil]
    show Except.ok acc = _
    rw [show sumFval [] 2 = 0 from rfl, show sumFval [] 5 = 0 from rfl,
      show sumFval [] 6 = 0 from rfl, show sumFval [] 7 = 0 from rfl,
      show sumFval [] 8 = 0 from rfl, show sumRW [] = 0 from rfl]
    simp
  | cons l rest ih =>
    rw [KPIAggregator.diskSlurp]
    by_cases hm : diskRowMatch dnames l = true
    · have hfil : (l :: rest).filter (diskRowMatch dnames) =
          l :: rest.filter (diskRowMatch dnames) := List.filter_cons_of_pos hm
      rw [hfil] at hp ⊢
      rw [KPIAggregator.diskRowStep_match dnames l acc hm (hp l (List.mem_cons_self _ _)),
        exceptBind_ok, ih _ (fun x hx => hp x (List.mem_cons_of_mem _ hx))]
      simp only [qAdd_eq, qMul_eq, sumFval_cons, sumRW_cons, Except.ok.injEq,
        DiskAcc.mk.injEq]
      refine ⟨by ring, by ring, by ring, by ring, by ring, by ring⟩
    · have hm' : diskRowMatch dnames l = false := Bool.not_eq_true _ ▸ (by simpa using hm)
      have hfil : (l :: rest).filter (diskRowMatch dnames) =
          rest.filter (diskRowMatch dnames) := List.filter_cons_of_neg (by simp [hm'])
      rw [hfil] at hp ⊢
      rw [KPIAggregator.diskRowStep_skip dnames l acc hm', exceptBind_ok, ih _ hp]

theorem KPIAggregator.disk_ioLoop_eq_slurp (dnames : List String) (o : List Line) :
    ∀ (n i : ℕ) (acc : DiskAcc), (i + n ≤ o.length ∨ n = 0) →
      KPIAggregator.disk_ioLoop dnames o i n acc =
        KPIAggregator.diskSlurp dnames ((o.drop i).take n) acc := by
  intro n
  induction n with
  | zero =>
    intro i acc _
    rw [List.take_zero]
    rfl
  | succ n ih =>
    intro i acc h
    have hi : i < o.length := by omega
    rw [KPIAggregator.disk_ioLoop, pyIndex_ok o i hi, exceptBind_ok,
      List.drop_eq_getElem_cons hi, List.take_succ_cons, KPIAggregator.diskSlurp]
    simp only [List.get_eq_getElem]
    cases hstep : KPIAggregator.diskRowStep dnames o[i] acc with
    | error e => rw [exceptBind_error, exceptBind_error]
    | ok acc' =>
      rw [exceptBind_ok, exceptBind_ok, ih (i + 1) acc' (by omega)]

/-- The rounded/averaged record `disk_io` builds from its loop accumulator
(perf_monitor.py lines 113-120), once `len(dnames)` is known non-zero. -/
def recordOfAcc (dnames : List String) (acc : DiskAcc) : DiskIORecord :=
  ⟨pyRound acc.iops,
   pyRound (qDiv acc.tp 1048576),
   pyRound (qDiv acc.req_size 1024),
   pyRound acc.q_len,
   pyRound (qDiv acc.wait (dnames.length : ℚ)),
   pyRound (qDiv acc.bw_util (dnames.length : ℚ))⟩

theorem KPIAggregator.disk_io_of_loop (dnames : List String) (st : String → ℚ × ℚ)
    (v : ℕ × ℕ) (o : List Line) (acc : DiskAcc)
    (hloop : KPIAggregator.disk_ioLoop dnames o v.1 (v.2 - v.1) ⟨0, 0, 0, 0, 0, 0⟩ =
      Except.ok acc)
    (hd : dnames.length ≠ 0) :
    KPIAggregator.disk_io dnames st v o =
      Except.ok
        (KPIAggregator.set_min_max st (diskBindings (recordOfAcc dnames acc)),
         recordOfAcc dnames acc) := by
  rw [KPIAggregator.disk_io, hloop, exceptBind_ok]
  simp only [hd, if_false, if_neg hd]
  rfl

/-!
### Claims C3 and C10 (Disk I/O extractor)
-/

open KPIAggregator in
/-- Claim C3: for every disk-io section and device filter, the Disk I/O
extractor returns iops = the sum of per-device ops/s over rows whose device
field is in the filter, throughput = the sum of (read+write sectors/s)
times 512 bytes converted to MB/s, average request size = the sum of
sectors/s times 512 bytes converted to KB, queue length = the per-device
sum, and wait and bandwidth-utilization equal to the arithmetic mean (not
the sum) across the filtered device count. -/
theorem C3_disk_io_sums_and_averages (dnames : List String) (st : String → ℚ × ℚ)
    (v : ℕ × ℕ) (o : List Line) (hb : v.2 ≤ o.length) (hd : dnames ≠ [])
    (hp : ∀ l ∈ diskMatchedRows dnames v o, diskRowParses l = true) :
    disk_io dnames st v o =
      Except.ok
        (set_min_max st (diskBindings (diskSpecRecord dnames (diskMatchedRows dnames v o))),
         diskSpecRecord dnames (diskMatchedRows dnames v o)) := by
  have hcase : v.1 + (v.2 - v.1) ≤ o.length ∨ v.2 - v.1 = 0 := by omega
  have hloop := disk_ioLoop_eq_slurp dnames o (v.2 - v.1) v.1 ⟨0, 0, 0, 0, 0, 0⟩ hcase
  rw [diskSlurp_ok dnames _ _ (fun l hl => hp l hl)] at hloop
  dsimp only at hloop
  rw [disk_io_of_loop dnames st v o _ hloop
    (fun hc => hd (List.length_eq_zero.1 hc))]
  have hrec :
      recordOfAcc dnames
        ⟨0 + sumFval (diskMatchedRows dnames v o) 2,
         0 + 512 * sumRW (diskMatchedRows dnames v o),
         0 + 512 * sumFval (diskMatchedRows dnames v o) 5,
         0 + sumFval (diskMatchedRows dnames v o) 6,
         0 + sumFval (diskMatchedRows dnames v o) 7,
         0 + sumFval (diskMatchedRows dnames v o) 8⟩ =
      diskSpecRecord dnames (diskMatchedRows dnames v o) := by
    rw [recordOfAcc, diskSpecRecord]
    simp only [qDiv_eq, qMul_eq, DiskIORecord.mk.injEq]
    exact ⟨congrArg pyRound (by ring), congrArg pyRound (by ring),
      congrArg pyRound (by ring), congrArg pyRound (by ring),
      congrArg pyRound (by ring), congrArg pyRound (by ring)⟩
  rw [show List.filter (diskRowMatch dnames) (List.take (v.2 - v.1) (List.drop v.1 o)) =
      diskMatchedRows dnames v o from rfl, hrec]

/-- Witness for C3: two matching rows with ops/s 10 and 20 under the
two-device filter give iops = 30; waits 4 and 6 average to 5 (not 10) and
bandwidth utilizations 30 and 50 average to 40 (not 80). -/
theorem C3_disk_io_sums_and_averages_witness :
    Except.map Prod.snd
      (KPIAggregator.disk_io ["sda", "sdb"] KPIAggregator.initState (0, 2)
        [["Average:", "sda", "10", "0", "0", "0", "0", "4", "30", "x"],
         ["Average:", "sdb", "20", "0", "0", "0", "0", "6", "50", "x"]]) =
      Except.ok (⟨30, 0, 0, 0, 5, 40⟩ : DiskIORecord) := by
  rw [C3_disk_io_sums_and_averages ["sda", "sdb"] KPIAggregator.initState (0, 2)
    [["Average:", "sda", "10", "0", "0", "0", "0", "4", "30", "x"],
     ["Average:", "sdb", "20", "0", "0", "0", "0", "6", "50", "x"]]
    (by decide) (by decide) (by decide)]
  decide

theorem diskRowMatch_nil (l : Line) : diskRowMatch [] l = false := by
  rw [diskRowMatch]
  cases l.get? 1 <;> simp

theorem KPIAggregator.diskSlurp_nil_filter (rows : List Line) (acc : DiskAcc) :
    KPIAggregator.diskSlurp [] rows acc = Except.ok acc := by
  induction rows generalizing acc with
  | nil => rfl
  | cons l rest ih =>
    rw [KPIAggregator.diskSlurp,
      KPIAggregator.diskRowStep_skip [] l acc (diskRowMatch_nil l),
      exceptBind_ok, ih]

open KPIAggregator in
/-- Claim C10: the Disk I/O extractor divides the summed wait and
bandwidth-utilization by the number of names in the device filter, so with
an empty device filter every call (with an in-bounds range) raises
ZeroDivisionError instead of returning a record, while a non-empty filter
(on parsable rows) always returns a record. -/
theorem C10_disk_io_empty_filter_zero_division (dnames : List String)
    (st : String → ℚ × ℚ) (v : ℕ × ℕ) (o : List Line) (hb : v.2 ≤ o.length) :
    (dnames = [] →
      disk_io dnames st v o = Except.error PyErr.zeroDivisionError) ∧
    (dnames ≠ [] →
      (∀ l ∈ diskMatchedRows dnames v o, diskRowParses l = true) →
      ∃ str, disk_io dnames st v o = Except.ok str) := by
  have hcase : v.1 + (v.2 - v.1) ≤ o.length ∨ v.2 - v.1 = 0 := by omega
  constructor
  · intro hnil
    subst hnil
    rw [disk_io, disk_ioLoop_eq_slurp [] o (v.2 - v.1) v.1 ⟨0, 0, 0, 0, 0, 0⟩ hcase,
      diskSlurp_nil_filter, exceptBind_ok]
    rfl
  · intro hd hp
    have hloop := disk_ioLoop_eq_slurp dnames o (v.2 - v.1) v.1 ⟨0, 0, 0, 0, 0, 0⟩ hcase
    rw [diskSlurp_ok dnames _ _ (fun l hl => hp l hl)] at hloop
    exact ⟨_, disk_io_of_loop dnames st v o _ hloop
      (fun hc => hd (List.length_eq_zero.1 hc))⟩

/-- Witness for C10: a concrete in-bounds call with an empty device filter
raises ZeroDivisionError. -/
theorem C10_disk_io_empty_filter_zero_division_witness :
    KPIAggregator.disk_io [] KPIAggregator.initState (0, 1)
      [["Average:", "sda", "10", "0", "0", "0", "0", "4", "30", "x"]] =
      Except.error PyErr.zeroDivisionError :=
  (C10_disk_io_empty_filter_zero_division [] KPIAggregator.initState (0, 1)
    [["Average:", "sda", "10", "0", "0", "0", "0", "4", "30", "x"]]
    (by decide)).1 rfl

/-!
### Memory/Swap extractor (`KPIAggregator.mem_swap`, perf_monitor.py lines 181-206)
-/

/-- `re.match(pat, line)` for a plain-text pattern: the raw line starts with
the pattern.  On the token model the raw line starts with its first token. -/
def lineMatchesPrefix (pat : String) (l : Line) : Bool :=
  match l with
  | [] => false
  | t :: _ => pat.data.isPrefixOf t.data

/-- `for i in range(*v): if re.match('Average:', o[i]): ... break` — find
the first line of the range whose raw text starts with `Average:`. -/
def memFindLoop (o : List Line) : ℕ → ℕ → Except PyErr (Option Line)
  | _, 0 => Except.ok none
  | i, n + 1 => do
    let l ← pyIndex o i
    if lineMatchesPrefix "Average:" l then Except.ok (some l)
    else memFindLoop o (i + 1) n

/-- The three values `mem_swap` returns (all `ℚ`: Python mixes the float
initialisers with ints after rounding). -/
structure MemSwapRecord where
  memused : ℚ
  memcached : ℚ
  swapused : ℚ
  deriving DecidableEq, Repr

/-- Processing of the matched memory row (perf_monitor.py lines 186-192):
round the percent-used field, derive `kbtotalmem = (kbmemused * 100) /
memused` only when it is still `None`, then compute
`memcached = int((cached * 100) / kbtotalmem)`. -/
def memRowExtract (kbt : Option ℚ) (fields : Line) :
    Except PyErr (ℚ × ℚ × Option ℚ) := do
  let f3 ← pyFloatAt fields 3
  let memused := pyRound f3
  match kbt with
  | none => do
    let f2 ← pyFloatAt fields 2
    if (memused : ℚ) = 0 then Except.error PyErr.zeroDivisionError
    else
      let t := qDiv (qMul f2 100) ((memused : ℤ) : ℚ)
      let f5 ← pyFloatAt fields 5
      if t = 0 then Except.error PyErr.zeroDivisionError
      else Except.ok ((memused : ℚ), ((pyTrunc (qDiv (qMul f5 100) t) : ℤ) : ℚ), some t)
  | some t => do
    let f5 ← pyFloatAt fields 5
    if t = 0 then Except.error PyErr.zeroDivisionError
    else Except.ok ((memused : ℚ), ((pyTrunc (qDiv (qMul f5 100) t) : ℤ) : ℚ), some t)

/-- Swap-row processing and assembly of the `mem_swap` result
(perf_monitor.py lines 193-206): find the swap row in `v2`, round its
percent field, update the aggregate state, return the three percentages. -/
def memSwapFinish (kbt2 : Option ℚ) (memused memcached : ℚ) (st : String → ℚ × ℚ)
    (v2 : ℕ × ℕ) (o : List Line) :
    Except PyErr (Option ℚ × (String → ℚ × ℚ) × MemSwapRecord) :=
  Except.bind (memFindLoop o v2.1 (v2.2 - v2.1)) (fun row2 =>
    Except.bind
      (match row2 with
       | none => Except.ok (0 : ℚ)
       | some fields =>
         Except.bind (pyFloatAt fields 3) (fun f3 =>
           Except.ok ((pyRound f3 : ℤ) : ℚ)))
      (fun swapused =>
        Except.ok
          (kbt2,
           KPIAggregator.set_min_max st
             [("memused", memused), ("memcached", memcached),
              ("swapused", swapused)],
           ⟨memused, memcached, swapused⟩)))

/-- `mem_swap(v1, v2, o)` (perf_monitor.py lines 181-206): find the memory
row in `v1`, derive `memused`/`memcached` (freezing `kbtotalmem` on first
use), then handle the swap row and assemble the result. -/
def KPIAggregator.mem_swap (kbt : Option ℚ) (st : String → ℚ × ℚ)
    (v1 v2 : ℕ × ℕ) (o : List Line) :
    Except PyErr (Option ℚ × (String → ℚ × ℚ) × MemSwapRecord) :=
  Except.bind (memFindLoop o v1.1 (v1.2 - v1.1)) (fun row1 =>
    Except.bind
      (match row1 with
       | none => Except.ok ((0 : ℚ), (0 : ℚ), kbt)
       | some fields => memRowExtract kbt fields)
      (fun mc => memSwapFinish mc.2.2 mc.1 mc.2.1 st v2 o))

theorem memRowExtract_frozen (T : ℚ) (fields : Line) (r : ℚ × ℚ × Option ℚ)
    (h : memRowExtract (some T) fields = Except.ok r) : r.2.2 = some T := by
  rw [memRowExtract] at h
  cases hf3 : pyFloatAt fields 3 with
  | error e => rw [hf3, exceptBind_error] at h; cases h
  | ok f3 =>
    rw [hf3, exceptBind_ok] at h
    dsimp only at h
    cases hf5 : pyFloatAt fields 5 with
    | error e => rw [hf5, exceptBind_error] at h; cases h
    | ok f5 =>
      rw [hf5, exceptBind_ok] at h
      by_cases ht : T = 0
      · rw [if_pos ht] at h; cases h
      · rw [if_neg ht] at h
        cases h
        rfl

theorem memRowExtract_derive (fields : Line) (hlen : 5 < fields.length)
    (h2 : (pyFloat (fields.getD 2 "")).isSome = true)
    (h3 : (pyFloat (fields.getD 3 "")).isSome = true)
    (h5 : (pyFloat (fields.getD 5 "")).isSome = true)
    (hp : ((pyRound (fval fields 3) : ℤ) : ℚ) ≠ 0)
    (hT : qDiv (qMul (fval fields 2) 100) ((pyRound (fval fields 3) : ℤ) : ℚ) ≠ 0) :
    memRowExtract none fields =
      Except.ok
        (((pyRound (fval fields 3) : ℤ) : ℚ),
         ((pyTrunc (qDiv (qMul (fval fields 5) 100)
            (qDiv (qMul (fval fields 2) 100) ((pyRound (fval fields 3) : ℤ) : ℚ))) : ℤ) : ℚ),
         some (qDiv (qMul (fval fields 2) 100) ((pyRound (fval fields 3) : ℤ) : ℚ))) := by
  rw [memRowExtract, pyFloatAt_ok fields 3 (by omega) h3, exceptBind_ok]
  dsimp only
  rw [pyFloatAt_ok fields 2 (by omega) h2, exceptBind_ok, if_neg hp,
    pyFloatAt_ok fields 5 (by omega) h5, exceptBind_ok, if_neg hT]

theorem memRowExtract_some_eq (T : ℚ) (fields : Line) (hlen : 5 < fields.length)
    (h3 : (pyFloat (fields.getD 3 "")).isSome = true)
    (h5 : (pyFloat (fields.getD 5 "")).isSome = true)
    (hT : T ≠ 0) :
    memRowExtract (some T) fields =
      Except.ok
        (((pyRound (fval fields 3) : ℤ) : ℚ),
         ((pyTrunc (qDiv (qMul (fval fields 5) 100) T) : ℤ) : ℚ),
         some T) := by
  rw [memRowExtract, pyFloatAt_ok fields 3 (by omega) h3, exceptBind_ok]
  dsimp only
  rw [pyFloatAt_ok fields 5 (by omega) h5, exceptBind_ok, if_neg hT]

theorem exceptBindE_ok {α β : Type} (a : α) (f : α → Except PyErr β) :
    Except.bind (Except.ok a) f = f a := rfl

theorem exceptBindE_error {α β : Type} (e : PyErr) (f : α → Except PyErr β) :
    Except.bind (Except.error e : Except PyErr α) f = Except.error e := rfl

theorem memSwapFinish_ok_cases (kbt2 : Option ℚ) (memused memcached : ℚ)
    (st : String → ℚ × ℚ) (v2 : ℕ × ℕ) (o : List Line)
    (r : Option ℚ × (String → ℚ × ℚ) × MemSwapRecord)
    (h : memSwapFinish kbt2 memused memcached st v2 o = Except.ok r) :
    r.1 = kbt2 ∧ r.2.2.memused = memused ∧ r.2.2.memcached = memcached := by
  rw [memSwapFinish] at h
  cases hrow2 : memFindLoop o v2.1 (v2.2 - v2.1) with
  | error e => rw [hrow2, exceptBindE_error] at h; cases h
  | ok row2 =>
    rw [hrow2, exceptBindE_ok] at h
    cases row2 with
    | none =>
      rw [exceptBindE_ok] at h
      cases h
      exact ⟨rfl, rfl, rfl⟩
    | some f =>
      dsimp only at h
      cases hf3 : pyFloatAt f 3 with
      | error e => rw [hf3, exceptBindE_error, exceptBindE_error] at h; cases h
      | ok f3 =>
        rw [hf3] at h
        simp only [exceptBindE_ok] at h
        cases h
        exact ⟨rfl, rfl, rfl⟩

theorem KPIAggregator.mem_swap_ok_cases (kbt : Option ℚ) (st : String → ℚ × ℚ)
    (v1 v2 : ℕ × ℕ) (o : List Line)
    (r : Option ℚ × (String → ℚ × ℚ) × MemSwapRecord)
    (h : KPIAggregator.mem_swap kbt st v1 v2 o = Except.ok r) :
    ∃ row1, memFindLoop o v1.1 (v1.2 - v1.1) = Except.ok row1 ∧
      ((row1 = none ∧ r.1 = kbt) ∨
       (∃ fields mc, row1 = some fields ∧ memRowExtract kbt fields = Except.ok mc ∧
         r.1 = mc.2.2 ∧ r.2.2.memused = mc.1 ∧ r.2.2.memcached = mc.2.1)) := by
  rw [KPIAggregator.mem_swap] at h
  cases hrow1 : memFindLoop o v1.1 (v1.2 - v1.1) with
  | error e => rw [hrow1, exceptBindE_error] at h; cases h
  | ok row1 =>
    rw [hrow1, exceptBindE_ok] at h
    refine ⟨row1, rfl, ?_⟩
    cases row1 with
    | none =>
      rw [exceptBindE_ok] at h
      exact Or.inl ⟨rfl, (memSwapFinish_ok_cases _ _ _ _ _ _ _ h).1⟩
    | some fields =>
      dsimp only at h
      cases hre : memRowExtract kbt fields with
      | error e => rw [hre, exceptBindE_error] at h; cases h
      | ok mc =>
        rw [hre, exceptBindE_ok] at h
        rcases memSwapFinish_ok_cases _ _ _ _ _ _ _ h with ⟨h1, h2, h3⟩
        exact Or.inr ⟨fields, mc, rfl, hre, h1, h2, h3⟩

theorem memRowExtract_none_fst (fields : Line) (mc : ℚ × ℚ × Option ℚ)
    (h : memRowExtract none fields = Except.ok mc) :
    ∃ f3v f2v, pyFloatAt fields 3 = Except.ok f3v ∧
      pyFloatAt fields 2 = Except.ok f2v ∧
      mc.2.2 = some (qDiv (qMul f2v 100) ((pyRound f3v : ℤ) : ℚ)) := by
  rw [memRowExtract] at h
  cases hf3 : pyFloatAt fields 3 with
  | error e => rw [hf3, exceptBind_error] at h; cases h
  | ok f3 =>
    rw [hf3, exceptBind_ok] at h
    dsimp only at h
    cases hf2 : pyFloatAt fields 2 with
    | error e => rw [hf2, exceptBind_error] at h; cases h
    | ok f2 =>
      rw [hf2, exceptBind_ok] at h
      by_cases hz : ((pyRound f3 : ℤ) : ℚ) = 0
      · rw [if_pos hz] at h; cases h
      · rw [if_neg hz] at h
        cases hf5 : pyFloatAt fields 5 with
        | error e => rw [hf5, exceptBind_error] at h; cases h
        | ok f5 =>
          rw [hf5, exceptBind_ok] at h
          by_cases ht : qDiv (qMul f2 100) ((pyRound f3 : ℤ) : ℚ) = 0
          · rw [if_pos ht] at h; cases h
          · rw [if_neg ht] at h
            cases h
            exact ⟨f3, f2, rfl, rfl, rfl⟩

/-!
### Claim C4 (total-memory-KB frozen after the first derivation)
-/

open KPIAggregator in
/-- Claim C4: total-memory-KB is derived exactly once, on the first tick in
which the memory extractor finds its row, as (used-KB x 100) / percent-used
(with percent-used as the extractor reports it, rounded to an integer), and
is reused unchanged for every later tick of the session: each later tick's
percent-cached equals int((cached-KB x 100) / frozen-total), independent of
that tick's percent-used field. -/
theorem C4_total_memory_frozen_once :
    (∀ (T : ℚ) (st : String → ℚ × ℚ) (v1 v2 : ℕ × ℕ) (o : List Line)
        (r : Option ℚ × (String → ℚ × ℚ) × MemSwapRecord),
        mem_swap (some T) st v1 v2 o = Except.ok r → r.1 = some T) ∧
    (∀ (st : String → ℚ × ℚ) (v1 v2 : ℕ × ℕ) (o : List Line) (fields : Line)
        (r : Option ℚ × (String → ℚ × ℚ) × MemSwapRecord),
        memFindLoop o v1.1 (v1.2 - v1.1) = Except.ok (some fields) →
        mem_swap none st v1 v2 o = Except.ok r →
        ∃ f3v f2v, pyFloatAt fields 3 = Except.ok f3v ∧
          pyFloatAt fields 2 = Except.ok f2v ∧
          r.1 = some (qDiv (qMul f2v 100) ((pyRound f3v : ℤ) : ℚ))) ∧
    (∀ (T : ℚ) (st : String → ℚ × ℚ) (v1 v2 : ℕ × ℕ) (o : List Line)
        (fields : Line) (r : Option ℚ × (String → ℚ × ℚ) × MemSwapRecord),
        memFindLoop o v1.1 (v1.2 - v1.1) = Except.ok (some fields) →
        5 < fields.length →
        (pyFloat (fields.getD 3 "")).isSome = true →
        (pyFloat (fields.getD 5 "")).isSome = true →
        T ≠ 0 →
        mem_swap (some T) st v1 v2 o = Except.ok r →
        r.1 = some T ∧
          r.2.2.memcached = ((pyTrunc (qDiv (qMul (fval fields 5) 100) T) : ℤ) : ℚ)) := by
  refine ⟨?_, ?_, ?_⟩
  · intro T st v1 v2 o r h
    rcases mem_swap_ok_cases _ _ _ _ _ _ h with ⟨row1, hrow1, hc⟩
    rcases hc with ⟨_, hfst⟩ | ⟨fields, mc, _, hre, hfst, _, _⟩
    · exact hfst
    · rw [hfst, memRowExtract_frozen T fields mc hre]
  · intro st v1 v2 o fields r hfind h
    rcases mem_swap_ok_cases _ _ _ _ _ _ h with ⟨row1, hrow1, hc⟩
    rw [hfind] at hrow1
    have hrow1' : row1 = some fields := (Except.ok.inj hrow1).symm
    rcases hc with ⟨hnone, _⟩ | ⟨fields', mc, heq, hre, hfst, _, _⟩
    · rw [hnone] at hrow1'; cases hrow1'
    · rw [hrow1'] at heq
      have hf : fields' = fields := (Option.some.inj heq).symm
      subst hf
      rcases memRowExtract_none_fst fields' mc hre with ⟨f3v, f2v, h3, h2, hval⟩
      exact ⟨f3v, f2v, h3, h2, by rw [hfst, hval]⟩
  · intro T st v1 v2 o fields r hfind hlen h3 h5 hT h
    rcases mem_swap_ok_cases _ _ _ _ _ _ h with ⟨row1, hrow1, hc⟩
    rw [hfind] at hrow1
    have hrow1' : row1 = some fields := (Except.ok.inj hrow1).symm
    rcases hc with ⟨hnone, _⟩ | ⟨fields', mc, heq, hre, hfst, _, hcached⟩
    · rw [hnone] at hrow1'; cases hrow1'
    · rw [hrow1'] at heq
      have hf : fields' = fields := (Option.some.inj heq).symm
      subst hf
      rw [memRowExtract_some_eq T fields' hlen h3 h5 hT] at hre
      have hmc := (Except.ok.inj hre)
      constructor
      · rw [hfst, ← hmc]
      · rw [hcached, ← hmc]

/-- Witness for C4, matching the spec's example: with total-memory frozen at
8192 (from a first tick with percent-used 50 and used-KB 4096), a later tick
with cached-KB 2048 and percent-used 60 reports percent-cached 25 =
int((2048 x 100) / 8192), ignoring both the 60 and that tick's used-KB. -/
theorem C4_total_memory_frozen_once_witness :
    KPIAggregator.mem_swap (some 8192) KPIAggregator.initState (0, 1) (1, 1)
        [["Average:", "x", "9999", "60", "x", "2048"]] =
      Except.ok (some 8192,
        KPIAggregator.set_min_max KPIAggregator.initState
          [("memused", 60), ("memcached", 25), ("swapused", 0)],
        ⟨60, 25, 0⟩) ∧
    ((⟨60, 25, 0⟩ : MemSwapRecord).memcached =
      ((pyTrunc (qDiv (qMul (fval ["Average:", "x", "9999", "60", "x", "2048"] 5) 100)
        8192) : ℤ) : ℚ)) := by
  constructor
  · rfl
  · exact (C4_total_memory_frozen_once.2.2 8192 KPIAggregator.initState (0, 1) (1, 1)
      [["Average:", "x", "9999", "60", "x", "2048"]]
      ["Average:", "x", "9999", "60", "x", "2048"]
      (some 8192,
        KPIAggregator.set_min_max KPIAggregator.initState
          [("memused", 60), ("memcached", 25), ("swapused", 0)],
        ⟨60, 25, 0⟩)
      (by decide) (by decide) (by decide) (by decide) (by decide) rfl).2

/-!
### Sampling driver of io_stats.py (`main`, io_stats.py lines 57-95)
-/

/-- The loop-carried state of the io_stats driver: the consecutive-failure
counter, the header-reprint counter, and the min/max aggregates.
Per io_stats.py lines 57-59, `min_iops` starts as `None` while `min_tp`
is immediately overwritten to `0.0` (so only `min_iops` has a `None` case). -/
structure IoStatsState where
  failed_attempts : ℕ
  count : ℕ
  min_iops : Option ℚ
  max_iops : ℚ
  min_tp : ℚ
  max_tp : ℚ
  deriving DecidableEq, Repr

/-- The state just before the first iteration (io_stats.py lines 57-65). -/
def ioStatsInit : IoStatsState := ⟨0, 0, none, 0, 0, 0⟩

/-- The parse check of io_stats.py line 70: the output is parseable when it
has at least 4 lines and line 3 starts with the pool name. -/
def ioParseOk (pname : String) (o : List Line) : Bool :=
  decide (4 ≤ o.length) && lineMatchesPrefix pname (o.getD 3 [])

/-- One iteration of the io_stats sampling loop (io_stats.py lines 67-95)
applied to one tick's captured output lines: on a parse failure bump the
consecutive-failure counter and abort via `sys.exit` once it exceeds 50;
on parse success reset the counter to zero and tighten the aggregates. -/
def io_statsStep (pname : String) (s : IoStatsState) (o : List Line) :
    Except PyErr IoStatsState :=
  if ioParseOk pname o = false then
    if s.failed_attempts + 1 > 50 then
      Except.error (PyErr.systemExit "Too many failed attempts, Aborting.")
    else Except.ok { s with failed_attempts := s.failed_attempts + 1 }
  else
    let fields := o.getD 3 []
    Except.bind (pyFloatAt fields 1) (fun f1 =>
    Except.bind (pyFloatAt fields 2) (fun f2 =>
    Except.bind (pyFloatAt fields 3) (fun f3 =>
    Except.bind (pyFloatAt fields 4) (fun f4 =>
    let iops := qAdd (qAdd (qAdd f1 f2) f3) f4
    let min_iops :=
      match s.min_iops with
      | none => some iops
      | some m => some (if iops < m then iops else m)
    let max_iops := if iops > s.max_iops then iops else s.max_iops
    Except.bind (pyFloatAt fields 5) (fun f5 =>
    Except.bind (pyFloatAt fields 6) (fun f6 =>
    let tp := qAdd f5 f6
    let min_tp := if tp < s.min_tp then tp else s.min_tp
    let max_tp := if tp > s.max_tp then tp else s.max_tp
    Except.bind (pyFloatAt fields 9) (fun _latency =>
    Except.bind (pyFloatAt fields 13) (fun _pct_util =>
    Except.ok
      { failed_attempts := 0,
        count := (if s.count = 15 then 0 else s.count) + 1,
        min_iops := min_iops,
        max_iops := max_iops,
        min_tp := min_tp,
        max_tp := max_tp }))))))))

/-- Iterating the io_stats loop over a list of tick outputs. -/
def io_statsRun (pname : String) : IoStatsState → List (List Line) → Except PyErr IoStatsState
  | s, [] => Except.ok s
  | s, o :: rest =>
    Except.bind (io_statsStep pname s o) (fun s' => io_statsRun pname s' rest)

theorem io_statsRun_append (pname : String) (s : IoStatsState)
    (a b : List (List Line)) :
    io_statsRun pname s (a ++ b) =
      Except.bind (io_statsRun pname s a) (fun s' => io_statsRun pname s' b) := by
  induction a generalizing s with
  | nil => rw [List.nil_append, io_statsRun, exceptBindE_ok]
  | cons o rest ih =>
    rw [List.cons_append, io_statsRun, io_statsRun]
    cases hstep : io_statsStep pname s o with
    | error e => rw [exceptBindE_error, exceptBindE_error, exceptBindE_error]
    | ok s' => rw [exceptBindE_ok, exceptBindE_ok, ih]

/-!
### Claim C5 (driver failure ceiling)
-/

/-- Claim C5: every ParseFailed tick increments the consecutive-failure
counter, the 51st consecutive failure aborts the session with the fatal
user-visible `sys.exit` message, a ParseOK tick resets the counter to zero
and sampling continues, and parse failures leave the aggregate min/max
state untouched. -/
theorem C5_driver_failure_ceiling :
    (∀ (pname : String) (s : IoStatsState) (o : List Line),
      ioParseOk pname o = false → s.failed_attempts < 50 →
      io_statsStep pname s o =
        Except.ok { s with failed_attempts := s.failed_attempts + 1 }) ∧
    (∀ (pname : String) (s : IoStatsState) (o : List Line),
      ioParseOk pname o = false → 50 ≤ s.failed_attempts →
      io_statsStep pname s o =
        Except.error (PyErr.systemExit "Too many failed attempts, Aborting.")) ∧
    (∀ (pname : String) (s : IoStatsState) (o : List Line) (r : IoStatsState),
      ioParseOk pname o = true → io_statsStep pname s o = Except.ok r →
      r.failed_attempts = 0) ∧
    (∀ (pname : String) (o : List Line) (k : ℕ) (s : IoStatsState),
      ioParseOk pname o = false → s.failed_attempts + k ≤ 50 →
      io_statsRun pname s (List.replicate k o) =
        Except.ok { s with failed_attempts := s.failed_attempts + k }) ∧
    (∀ (pname : String) (o : List Line) (s : IoStatsState),
      ioParseOk pname o = false → s.failed_attempts = 0 →
      io_statsRun pname s (List.replicate 51 o) =
        Except.error (PyErr.systemExit "Too many failed attempts, Aborting.")) ∧
    (∀ (pname : String) (o o2 : List Line) (s : IoStatsState) (r : IoStatsState),
      ioParseOk pname o = false → ioParseOk pname o2 = true →
      s.failed_attempts = 0 →
      io_statsRun pname s (List.replicate 50 o ++ [o2]) = Except.ok r →
      r.failed_attempts = 0) := by
  have ha : ∀ (pname : String) (s : IoStatsState) (o : List Line),
      ioParseOk pname o = false → s.failed_attempts < 50 →
      io_statsStep pname s o =
        Except.ok { s with failed_attempts := s.failed_attempts + 1 } := by
    intro pname s o hfail hlt
    rw [io_statsStep, if_pos hfail, if_neg (by omega)]
  have hb : ∀ (pname : String) (s : IoStatsState) (o : List Line),
      ioParseOk pname o = false → 50 ≤ s.failed_attempts →
      io_statsStep pname s o =
        Except.error (PyErr.systemExit "Too many failed attempts, Aborting.") := by
    intro pname s o hfail hge
    rw [io_statsStep, if_pos hfail, if_pos (by omega)]
  have hc : ∀ (pname : String) (s : IoStatsState) (o : List Line) (r : IoStatsState),
      ioParseOk pname o = true → io_statsStep pname s o = Except.ok r →
      r.failed_attempts = 0 := by
    intro pname s o r hok hstep
    rw [io_statsStep, if_neg (by simp [hok])] at hstep
    dsimp only at hstep
    cases hf1 : pyFloatAt (o.getD 3 []) 1 with
    | error e => rw [hf1, exceptBindE_error] at hstep; cases hstep
    | ok f1 =>
    rw [hf1, exceptBindE_ok] at hstep
    cases hf2 : pyFloatAt (o.getD 3 []) 2 with
    | error e => rw [hf2, exceptBindE_error] at hstep; cases hstep
    | ok f2 =>
    rw [hf2, exceptBindE_ok] at hstep
    cases hf3 : pyFloatAt (o.getD 3 []) 3 with
    | error e => rw [hf3, exceptBindE_error] at hstep; cases hstep
    | ok f3 =>
    rw [hf3, exceptBindE_ok] at hstep
    cases hf4 : pyFloatAt (o.getD 3 []) 4 with
    | error e => rw [hf4, exceptBindE_error] at hstep; cases hstep
    | ok f4 =>
    rw [hf4, exceptBindE_ok] at hstep
    cases hf5 : pyFloatAt (o.getD 3 []) 5 with
    | error e => rw [hf5, exceptBindE_error] at hstep; cases hstep
    | ok f5 =>
    rw [hf5, exceptBindE_ok] at hstep
    cases hf6 : pyFloatAt (o.getD 3 []) 6 with
    | error e => rw [hf6, exceptBindE_error] at hstep; cases hstep
    | ok f6 =>
    rw [hf6, exceptBindE_ok] at hstep
    cases hf9 : pyFloatAt (o.getD 3 []) 9 with
    | error e => rw [hf9, exceptBindE_error] at hstep; cases hstep
    | ok f9 =>
    rw [hf9, exceptBindE_ok] at hstep
    cases hf13 : pyFloatAt (o.getD 3 []) 13 with
    | error e => rw [hf13, exceptBindE_error] at hstep; cases hstep
    | ok f13 =>
    rw [hf13, exceptBindE_ok] at hstep
    cases hstep
    rfl
  have hd : ∀ (pname : String) (o : List Line) (k : ℕ) (s : IoStatsState),
      ioParseOk pname o = false → s.failed_attempts + k ≤ 50 →
      io_statsRun pname s (List.replicate k o) =
        Except.ok { s with failed_attempts := s.failed_attempts + k } := by
    intro pname o k
    induction k with
    | zero =>
      intro s _ _
      rw [List.replicate_zero, io_statsRun]
      simp
    | succ k ih =>
      intro s hfail hle
      rw [List.replicate_succ, io_statsRun, ha pname s o hfail (by omega),
        exceptBindE_ok, ih _ hfail (by dsimp only; omega)]
      dsimp only
      rw [show s.failed_attempts + 1 + k = s.failed_attempts + (k + 1) by omega]
  refine ⟨ha, hb, hc, hd, ?_, ?_⟩
  · intro pname o s hfail hzero
    rw [show (51 : ℕ) = 50 + 1 from rfl, List.replicate_succ',
      io_statsRun_append, hd pname o 50 s hfail (by omega), exceptBindE_ok,
      io_statsRun, hb pname _ o hfail (by dsimp only; omega), exceptBindE_error]
  · intro pname o o2 s r hfail hok hzero hrun
    rw [io_statsRun_append, hd pname o 50 s hfail (by omega), exceptBindE_ok,
      io_statsRun] at hrun
    cases hstep : io_statsStep pname { s with failed_attempts := s.failed_attempts + 50 } o2 with
    | error e => rw [hstep, exceptBindE_error] at hrun; cases hrun
    | ok s' =>
      rw [hstep, exceptBindE_ok, io_statsRun] at hrun
      cases hrun
      exact hc pname _ o2 _ hok hstep

/-- Witness for C5: from a fresh session, 51 consecutive unparseable ticks
abort with the fatal message, while 50 unparseable ticks followed by one
parseable tick leave the counter at zero. -/
theorem C5_driver_failure_ceiling_witness :
    io_statsRun "p" ioStatsInit (List.replicate 51 ([] : List Line)) =
      Except.error (PyErr.systemExit "Too many failed attempts, Aborting.") ∧
    (⟨0, 1, some 10, 10, 0, 11⟩ : IoStatsState).failed_attempts = 0 := by
  constructor
  · exact C5_driver_failure_ceiling.2.2.2.2.1 "p" [] ioStatsInit (by decide) rfl
  · exact C5_driver_failure_ceiling.2.2.2.2.2 "p" []
      [[], [], [], ["p", "1", "2", "3", "4", "5", "6", "x", "x", "7", "x", "x", "x", "8"]]
      ioStatsInit ⟨0, 1, some 10, 10, 0, 11⟩ (by decide) (by decide) rfl (by decide)

/-!
### Section splitter (perf_monitor.py `main`, lines 280-294)

`section_ranges` is a Python dict from a section label to a list holding
the start index and (once closed) the end index of the section's data rows.
It is created once before the `while` loop (line 280), so it persists
across ticks; `cur_section`/`prev_section` are reset each tick (line 284).
-/

/-- The `section_ranges` dict, as an insertion-ordered association list. -/
abbrev SecMap := List (String × List ℕ)

/-- The fixed vocabulary of section header markers (perf_monitor.py line 288). -/
def sectionMarkers : List String :=
  ["CPU", "IFACE", "scall/s", "kbmemfree", "kbswpfree", "runq-sz", "DEV"]

/-- Lines 286-288: `fields = o[i].strip().split()`, then
`len(fields) > 0 and fields[0] == 'Average:'` and `fields[1] in (...)`.
A lone `Average:` token raises IndexError at `fields[1]`. -/
def headerCheck (l : Line) : Except PyErr (Option String) :=
  match l with
  | [] => Except.ok none
  | [f0] =>
    if f0 = "Average:" then Except.error PyErr.indexError else Except.ok none
  | f0 :: f1 :: _ =>
    Except.ok (if f0 = "Average:" ∧ f1 ∈ sectionMarkers then some f1 else none)

/-- `d[k] = v` on a Python dict: replace in place, else append at the end. -/
def dictSet : SecMap → String → List ℕ → SecMap
  | [], k, v => [(k, v)]
  | e :: rest, k, v =>
    if e.1 = k then (k, v) :: rest else e :: dictSet rest k v

/-- `d[k].append(i)` on a Python dict (the key is always present at the
call sites: it was inserted when its label became `cur_section`). -/
def dictAppend (m : SecMap) (k : String) (i : ℕ) : SecMap :=
  m.map (fun e => if e.1 = k then (e.1, e.2 ++ [i]) else e)

/-- `d[k]` on a Python dict: `KeyError` when the key is missing. -/
def dictGet (m : SecMap) (k : String) : Except PyErr (List ℕ) :=
  match m.lookup k with
  | some v => Except.ok v
  | none => Except.error PyErr.keyError

/-- Closing the previously open section at index `i` (lines 289-291):
`prev_section = cur_section; if prev_section is not None:
section_ranges[prev_section].append(i)`. -/
def closeAt (m : SecMap) (cur : Option String) (i : ℕ) : SecMap :=
  match cur with
  | none => m
  | some p => dictAppend m p i

/-- The scan of lines 285-293 over the tick's lines (carrying the running
line index, the dict and `cur_section`). -/
def splitLoop : ℕ → List Line → SecMap → Option String →
    Except PyErr (SecMap × Option String)
  | _, [], m, cur => Except.ok (m, cur)
  | i, l :: rest, m, cur =>
    Except.bind (headerCheck l) (fun hd =>
      match hd with
      | none => splitLoop (i + 1) rest m cur
      | some lbl =>
        splitLoop (i + 1) rest (dictSet (closeAt m cur i) lbl [i + 1]) (some lbl))

/-- One tick of the splitter (lines 284-294), starting from the dict left
over from earlier ticks: scan the lines, then close the last open section
at the line count; with no header seen, `section_ranges[cur_section]` with
`cur_section = None` raises KeyError. -/
def tickSections (prev : SecMap) (o : List Line) : Except PyErr SecMap :=
  Except.bind (splitLoop 0 o prev none) (fun mc =>
    match mc.2 with
    | none => Except.error PyErr.keyError
    | some lbl => Except.ok (dictAppend mc.1 lbl o.length))

/-- The splitter on one tick viewed in isolation (fresh dict). -/
def splitSections (o : List Line) : Except PyErr SecMap :=
  tickSections [] o

/-!
### Specification-side synthetic section text and expected ranges (for C6)
-/

/-- A header line for a section label, as the sampled tool prints it. -/
def mkHeaderLine (lbl : String) : Line := ["Average:", lbl]

/-- Synthetic section-labeled text: each section contributes its header
line followed by its data rows. -/
def mkSectionLines (sections : List (String × List Line)) : List Line :=
  (sections.map (fun sec => mkHeaderLine sec.1 :: sec.2)).flatten

/-- The `[start, end)` ranges the specification expects: each section's
data rows start right after its header and end at the next header (or at
the line count for the last section). -/
def expectedRanges (base : ℕ) : List (String × List Line) → SecMap
  | [] => []
  | (lbl, rows) :: rest =>
    (lbl, [base + 1, base + 1 + rows.length]) ::
      expectedRanges (base + 1 + rows.length) rest

/-- The dict contents mid-scan: all sections closed except the last, which
is still open (holds only its start index). -/
def partialRanges (base : ℕ) : List (String × List Line) → SecMap
  | [] => []
  | [(lbl, _)] => [(lbl, [base + 1])]
  | (lbl, rows) :: rest =>
    (lbl, [base + 1, base + 1 + rows.length]) ::
      partialRanges (base + 1 + rows.length) rest

/-- Label of the last section. -/
def lastLabel : List (String × List Line) → Option String
  | [] => none
  | [(lbl, _)] => some lbl
  | _ :: rest => lastLabel rest

/-- No entry of the dict has the given key. -/
def NoKey (m : SecMap) (x : String) : Prop := ∀ e ∈ m, e.1 ≠ x

theorem dictSet_not_mem (m : SecMap) (k : String) (v : List ℕ) (h : NoKey m k) :
    dictSet m k v = m ++ [(k, v)] := by
  induction m with
  | nil => rfl
  | cons e rest ih =>
    rw [dictSet, if_neg (h e (List.mem_cons_self _ _)), List.cons_append,
      ih (fun x hx => h x (List.mem_cons_of_mem _ hx))]

theorem dictAppend_not_mem (m : SecMap) (k : String) (i : ℕ) (h : NoKey m k) :
    dictAppend m k i = m := by
  induction m with
  | nil => rfl
  | cons e rest ih =>
    rw [dictAppend, List.map_cons, if_neg (h e (List.mem_cons_self _ _))]
    rw [dictAppend] at ih
    rw [ih (fun x hx => h x (List.mem_cons_of_mem _ hx))]

theorem dictAppend_append (m₁ m₂ : SecMap) (k : String) (i : ℕ) :
    dictAppend (m₁ ++ m₂) k i = dictAppend m₁ k i ++ dictAppend m₂ k i := by
  rw [dictAppend, dictAppend, dictAppend, List.map_append]

theorem NoKey_dictAppend (m : SecMap) (k : String) (i : ℕ) (x : String)
    (h : NoKey m x) : NoKey (dictAppend m k i) x := by
  intro e he
  rcases List.mem_map.1 he with ⟨e₀, he₀, heq⟩
  have : e.1 = e₀.1 := by
    rw [← heq]
    by_cases h0 : e₀.1 = k <;> simp [h0]
  rw [this]
  exact h e₀ he₀

theorem NoKey_closeAt (m : SecMap) (cur : Option String) (i : ℕ) (x : String)
    (h : NoKey m x) : NoKey (closeAt m cur i) x := by
  cases cur with
  | none => exact h
  | some p => exact NoKey_dictAppend m p i x h

theorem splitLoop_skip (rows : List Line)
    (h : ∀ l ∈ rows, headerCheck l = Except.ok none) :
    ∀ (i : ℕ) (rest : List Line) (m : SecMap) (cur : Option String),
      splitLoop i (rows ++ rest) m cur = splitLoop (i + rows.length) rest m cur := by
  induction rows with
  | nil =>
    intro i rest m cur
    rw [List.nil_append, List.length_nil, Nat.add_zero]
  | cons r rows ih =>
    intro i rest m cur
    rw [List.cons_append, splitLoop, h r (List.mem_cons_self _ _), exceptBindE_ok]
    rw [ih (fun l hl => h l (List.mem_cons_of_mem _ hl)) (i + 1) rest m cur]
    rw [List.length_cons, show i + 1 + rows.length = i + (rows.length + 1) by omega]

theorem splitLoop_all_skip (rows : List Line)
    (h : ∀ l ∈ rows, headerCheck l = Except.ok none) :
    ∀ (i : ℕ) (m : SecMap) (cur : Option String),
      splitLoop i rows m cur = Except.ok (m, cur) := by
  induction rows with
  | nil => intro i m cur; rfl
  | cons r rows ih =>
    intro i m cur
    rw [splitLoop, h r (List.mem_cons_self _ _), exceptBindE_ok]
    exact ih (fun l hl => h l (List.mem_cons_of_mem _ hl)) (i + 1) m cur

theorem headerCheck_mkHeaderLine (lbl : String) (hm : lbl ∈ sectionMarkers) :
    headerCheck (mkHeaderLine lbl) = Except.ok (some lbl) := by
  rw [mkHeaderLine, headerCheck, if_pos ⟨rfl, hm⟩]

theorem mkSectionLines_cons (lbl : String) (rows : List Line)
    (rest : List (String × List Line)) :
    mkSectionLines ((lbl, rows) :: rest) =
      mkHeaderLine lbl :: (rows ++ mkSectionLines rest) := rfl

theorem mkSectionLines_length (lbl : String) (rows : List Line)
    (rest : List (String × List Line)) :
    (mkSectionLines ((lbl, rows) :: rest)).length =
      1 + rows.length + (mkSectionLines rest).length := by
  rw [mkSectionLines_cons, List.length_cons, List.length_append]
  omega

theorem lastLabel_mem (sections : List (String × List Line)) (ll : String)
    (h : lastLabel sections = some ll) : ll ∈ sections.map Prod.fst := by
  induction sections with
  | nil => cases h
  | cons s rest ih =>
    cases rest with
    | nil =>
      rw [lastLabel] at h
      cases h
      exact List.mem_map_of_mem Prod.fst (List.mem_cons_self _ _)
    | cons s2 rest2 =>
      rw [show lastLabel (s :: s2 :: rest2) = lastLabel (s2 :: rest2) from rfl] at h
      exact List.mem_cons_of_mem _ (ih h)

theorem lastLabel_isSome (sections : List (String × List Line))
    (h : sections ≠ []) : ∃ ll, lastLabel sections = some ll := by
  induction sections with
  | nil => exact absurd rfl h
  | cons s rest ih =>
    cases rest with
    | nil => exact ⟨s.1, by rw [show (s :: []) = [(s.1, s.2)] from rfl]; rfl⟩
    | cons s2 rest2 =>
      rcases ih (by simp) with ⟨ll, hll⟩
      exact ⟨ll, by rw [show lastLabel (s :: s2 :: rest2) = lastLabel (s2 :: rest2) from rfl, hll]⟩

theorem splitLoop_sections (sections : List (String × List Line)) :
    ∀ (i : ℕ) (m : SecMap) (cur : Option String),
      sections ≠ [] →
      (sections.map Prod.fst).Nodup →
      (∀ s ∈ sections, s.1 ∈ sectionMarkers) →
      (∀ s ∈ sections, ∀ l ∈ s.2, headerCheck l = Except.ok none) →
      (∀ s ∈ sections, NoKey m s.1) →
      splitLoop i (mkSectionLines sections) m cur =
        Except.ok (closeAt m cur i ++ partialRanges i sections, lastLabel sections) := by
  induction sections with
  | nil => intro _ _ _ hne; exact absurd rfl hne
  | cons s rest ih =>
    intro i m cur _ hnd hmk hrows hkeys
    obtain ⟨lbl, rows⟩ := s
    rw [mkSectionLines_cons, splitLoop,
      headerCheck_mkHeaderLine lbl (hmk _ (List.mem_cons_self _ _)), exceptBindE_ok]
    dsimp only
    have hkeysclose : NoKey (closeAt m cur i) lbl :=
      NoKey_closeAt m cur i lbl (hkeys _ (List.mem_cons_self _ _))
    rw [dictSet_not_mem _ _ _ hkeysclose]
    cases rest with
    | nil =>
      rw [show mkSectionLines ([] : List (String × List Line)) = [] from rfl,
        List.append_nil]
      rw [splitLoop_all_skip rows (hrows _ (List.mem_cons_self _ _)) (i + 1) _ _]
      rfl
    | cons s2 rest2 =>
      have hlbl_not : ∀ s' ∈ s2 :: rest2, s'.1 ≠ lbl := by
        intro s' hs' heq
        rw [List.map_cons, List.nodup_cons] at hnd
        exact hnd.1 (List.mem_map.2 ⟨s', hs', heq⟩)
      have hkeys' : ∀ s' ∈ s2 :: rest2,
          NoKey (closeAt m cur i ++ [(lbl, [i + 1])]) s'.1 := by
        intro s' hs' e he
        rcases List.mem_append.1 he with hm' | hsingle
        · exact NoKey_closeAt m cur i s'.1
            (hkeys s' (List.mem_cons_of_mem _ hs')) e hm'
        · rw [List.mem_singleton.1 hsingle]
          exact (hlbl_not s' hs').symm
      rw [splitLoop_skip rows (hrows _ (List.mem_cons_self _ _)) (i + 1)
        (mkSectionLines (s2 :: rest2)) _ _]
      rw [ih (i + 1 + rows.length) _ (some lbl) (by simp)
        (by rw [List.map_cons, List.nodup_cons] at hnd; exact hnd.2)
        (fun s' hs' => hmk s' (List.mem_cons_of_mem _ hs'))
        (fun s' hs' => hrows s' (List.mem_cons_of_mem _ hs'))
        hkeys']
      have hclose : closeAt (closeAt m cur i ++ [(lbl, [i + 1])]) (some lbl)
          (i + 1 + rows.length) =
          closeAt m cur i ++ [(lbl, [i + 1, i + 1 + rows.length])] := by
        rw [show closeAt (closeAt m cur i ++ [(lbl, [i + 1])]) (some lbl)
            (i + 1 + rows.length) =
            dictAppend (closeAt m cur i ++ [(lbl, [i + 1])]) lbl
              (i + 1 + rows.length) from rfl,
          dictAppend_append, dictAppend_not_mem _ _ _ hkeysclose]
        simp [dictAppend]
      rw [hclose, List.append_assoc]
      rfl

theorem dictAppend_partial_last (sections : List (String × List Line)) :
    ∀ (b : ℕ) (ll : String),
      (sections.map Prod.fst).Nodup →
      lastLabel sections = some ll →
      dictAppend (partialRanges b sections) ll (b + (mkSectionLines sections).length) =
        expectedRanges b sections := by
  induction sections with
  | nil => intro b ll _ h; cases h
  | cons s rest ih =>
    intro b ll hnd hll
    obtain ⟨lbl, rows⟩ := s
    cases rest with
    | nil =>
      rw [show lastLabel [(lbl, rows)] = some lbl from rfl] at hll
      have hll' : lbl = ll := by injection hll
      subst hll'
      rw [show partialRanges b [(lbl, rows)] = [(lbl, [b + 1])] from rfl]
      rw [mkSectionLines_length]
      rw [show mkSectionLines ([] : List (String × List Line)) = [] from rfl]
      simp [dictAppend, expectedRanges]
      omega
    | cons s2 rest2 =>
      rw [show lastLabel ((lbl, rows) :: s2 :: rest2) = lastLabel (s2 :: rest2) from rfl] at hll
      have hmem : ll ∈ (s2 :: rest2).map Prod.fst := lastLabel_mem _ _ hll
      have hne : lbl ≠ ll := by
        rw [List.map_cons, List.nodup_cons] at hnd
        intro heq
        exact hnd.1 (heq ▸ hmem)
      rw [show partialRanges b ((lbl, rows) :: s2 :: rest2) =
          (lbl, [b + 1, b + 1 + rows.length]) ::
            partialRanges (b + 1 + rows.length) (s2 :: rest2) from rfl]
      rw [dictAppend, List.map_cons, if_neg hne]
      rw [show List.map _ (partialRanges (b + 1 + rows.length) (s2 :: rest2)) =
          dictAppend (partialRanges (b + 1 + rows.length) (s2 :: rest2)) ll
            (b + (mkSectionLines ((lbl, rows) :: s2 :: rest2)).length) from rfl]
      rw [mkSectionLines_length,
        show b + (1 + rows.length + (mkSectionLines (s2 :: rest2)).length) =
          (b + 1 + rows.length) + (mkSectionLines (s2 :: rest2)).length by omega]
      rw [ih (b + 1 + rows.length) ll
        (by rw [List.map_cons, List.nodup_cons] at hnd; exact hnd.2) hll]
      rfl

theorem expectedRanges_lookup_slice (sections : List (String × List Line)) :
    ∀ (b : ℕ) (full : List Line),
      (sections.map Prod.fst).Nodup →
      full.drop b = mkSectionLines sections →
      ∀ lbl rows, (lbl, rows) ∈ sections →
      ∃ s e, (expectedRanges b sections).lookup lbl = some [s, e] ∧
        ((full.drop s).take (e - s)) = rows ∧ b < s ∧ s ≤ e := by
  induction sections with
  | nil => intro _ _ _ _ _ _ h; cases h
  | cons sec rest ih =>
    intro b full hnd hfull lbl rows hmem
    obtain ⟨lbl1, rows1⟩ := sec
    have hdrop1 : full.drop (b + 1) = rows1 ++ mkSectionLines rest := by
      rw [← List.drop_drop 1 b full, hfull, mkSectionLines_cons]
      rfl
    rcases List.mem_cons.1 hmem with heq | hrest
    · have hl : lbl = lbl1 := by rw [Prod.mk.injEq] at heq; exact heq.1
      have hr : rows = rows1 := by rw [Prod.mk.injEq] at heq; exact heq.2
      subst hl
      subst hr
      refine ⟨b + 1, b + 1 + rows.length, ?_, ?_, by omega, by omega⟩
      · rw [show expectedRanges b ((lbl, rows) :: rest) =
          (lbl, [b + 1, b + 1 + rows.length]) ::
            expectedRanges (b + 1 + rows.length) rest from rfl]
        simp [List.lookup]
      · rw [hdrop1, show b + 1 + rows.length - (b + 1) = rows.length by omega]
        exact List.take_left rows (mkSectionLines rest)
    · have hne : lbl ≠ lbl1 := by
        intro heq
        rw [List.map_cons, List.nodup_cons] at hnd
        exact hnd.1 (heq ▸ List.mem_map.2 ⟨(lbl, rows), hrest, rfl⟩)
      have hdrop2 : full.drop (b + 1 + rows1.length) = mkSectionLines rest := by
        rw [← List.drop_drop rows1.length (b + 1) full, hdrop1]
        exact List.drop_left rows1 (mkSectionLines rest)
      rcases ih (b + 1 + rows1.length) full
        (by rw [List.map_cons, List.nodup_cons] at hnd; exact hnd.2)
        hdrop2 lbl rows hrest with ⟨s, e, hlook, hslice, hlt, hle⟩
      refine ⟨s, e, ?_, hslice, by omega, hle⟩
      rw [show expectedRanges b ((lbl1, rows1) :: rest) =
        (lbl1, [b + 1, b + 1 + rows1.length]) ::
          expectedRanges (b + 1 + rows1.length) rest from rfl]
      rw [List.lookup, show (lbl == lbl1) = false from beq_eq_false_iff_ne.2 hne]
      exact hlook

/-- Contiguity and non-overlap of a range map: each entry is the interval
`[b+1, e)` opening right after the previous entry's end (the header line
sits at `b`), so consecutive data-row ranges are disjoint and adjacent. -/
def rangesChainFrom : ℕ → SecMap → Prop
  | _, [] => True
  | b, (_, v) :: rest => ∃ e, v = [b + 1, e] ∧ b + 1 ≤ e ∧ rangesChainFrom e rest

theorem expectedRanges_chain (sections : List (String × List Line)) :
    ∀ b : ℕ, rangesChainFrom b (expectedRanges b sections) := by
  induction sections with
  | nil => intro b; trivial
  | cons sec rest ih =>
    intro b
    obtain ⟨lbl, rows⟩ := sec
    exact ⟨b + 1 + rows.length, rfl, by omega, ih (b + 1 + rows.length)⟩

/-!
### Claim C6 (splitter round trip)
-/

/-- Claim C6: the section splitter scans once, closing the previous open
range at each recognized header line and opening a new range at the next
index, closing the last range at the line count; on section-labeled text
the recovered half-open ranges cover exactly each section's data rows,
exclude the header lines, and are contiguous and non-overlapping,
regardless of the order of the sections. -/
theorem C6_splitter_round_trip (sections : List (String × List Line))
    (hne : sections ≠ [])
    (hnd : (sections.map Prod.fst).Nodup)
    (hmk : ∀ s ∈ sections, s.1 ∈ sectionMarkers)
    (hrows : ∀ s ∈ sections, ∀ l ∈ s.2, headerCheck l = Except.ok none) :
    splitSections (mkSectionLines sections) = Except.ok (expectedRanges 0 sections) ∧
    (∀ lbl rows, (lbl, rows) ∈ sections →
      ∃ s e, (expectedRanges 0 sections).lookup lbl = some [s, e] ∧
        (((mkSectionLines sections).drop s).take (e - s)) = rows ∧ 0 < s ∧ s ≤ e) ∧
    rangesChainFrom 0 (expectedRanges 0 sections) := by
  refine ⟨?_, ?_, expectedRanges_chain sections 0⟩
  · rw [splitSections, tickSections,
      splitLoop_sections sections 0 [] none hne hnd hmk hrows
        (fun s _ e he => absurd he (List.not_mem_nil e)),
      exceptBindE_ok]
    rcases lastLabel_isSome sections hne with ⟨ll, hll⟩
    rw [hll]
    dsimp only
    rw [show closeAt ([] : SecMap) none 0 ++ partialRanges 0 sections =
      partialRanges 0 sections from List.nil_append _]
    rw [show (mkSectionLines sections).length =
      0 + (mkSectionLines sections).length by omega]
    rw [dictAppend_partial_last sections 0 ll hnd hll]
  · exact expectedRanges_lookup_slice sections 0 (mkSectionLines sections) hnd
      (by rw [List.drop_zero])

/-- Witness for C6 on concrete two-section text with the sections in an
order different from the marker vocabulary's: the splitter recovers
[1,2) for DEV's one data row and [3,5) for CPU's two data rows. -/
theorem C6_splitter_round_trip_witness :
    splitSections (mkSectionLines [("DEV", [["sda", "1"]]), ("CPU", [["a"], ["b"]])]) =
      Except.ok (expectedRanges 0 [("DEV", [["sda", "1"]]), ("CPU", [["a"], ["b"]])]) :=
  (C6_splitter_round_trip [("DEV", [["sda", "1"]]), ("CPU", [["a"], ["b"]])]
    (by decide) (by decide) (by decide) (by decide)).1

/-!
### Claim C8 (section dict persistence across ticks)
-/

/-- The labels for which the given lines contain a recognized header. -/
def headerLabels (ls : List Line) : List String :=
  ls.filterMap (fun l =>
    match headerCheck l with
    | Except.ok (some lbl) => some lbl
    | _ => none)

theorem lookup_dictSet_self (m : SecMap) (k : String) (v : List ℕ) :
    (dictSet m k v).lookup k = some v := by
  induction m with
  | nil => simp [dictSet, List.lookup]
  | cons e rest ih =>
    rw [dictSet]
    by_cases he : e.1 = k
    · rw [if_pos he]
      simp [List.lookup]
    · rw [if_neg he, List.lookup,
        show (k == e.1) = false from beq_eq_false_iff_ne.2 (fun hc => he hc.symm)]
      exact ih

theorem lookup_dictSet_other (m : SecMap) (k : String) (v : List ℕ) (x : String)
    (h : x ≠ k) : (dictSet m k v).lookup x = m.lookup x := by
  induction m with
  | nil => simp [dictSet, List.lookup, beq_eq_false_iff_ne.2 h]
  | cons e rest ih =>
    rw [dictSet]
    by_cases he : e.1 = k
    · rw [if_pos he, List.lookup, List.lookup,
        show (x == k) = false from beq_eq_false_iff_ne.2 h,
        show (x == e.1) = false from beq_eq_false_iff_ne.2 (he ▸ h)]
    · rw [if_neg he, List.lookup, List.lookup]
      cases hbe : x == e.1 with
      | true => rfl
      | false => exact ih

theorem lookup_dictAppend (m : SecMap) (k : String) (i : ℕ) (x : String) :
    (dictAppend m k i).lookup x =
      if x = k then (m.lookup k).map (fun l => l ++ [i]) else m.lookup x := by
  induction m with
  | nil => by_cases h : x = k <;> simp [dictAppend, List.lookup, h]
  | cons e rest ih =>
    have hcons : dictAppend (e :: rest) k i =
        (if e.1 = k then (e.1, e.2 ++ [i]) else e) :: dictAppend rest k i := rfl
    rw [hcons]
    by_cases he : e.1 = k
    · rw [if_pos he]
      by_cases hx : x = k
      · subst hx
        rw [if_pos rfl, List.lookup, List.lookup,
          show (x == e.1) = true from beq_iff_eq.2 he.symm]
        rfl
      · rw [if_neg hx, List.lookup, List.lookup,
          show (x == e.1) = false from
            beq_eq_false_iff_ne.2 (fun hc => hx (hc.trans he)),
          ih, if_neg hx]
    · rw [if_neg he]
      by_cases hx : x = k
      · subst hx
        rw [if_pos rfl, List.lookup, List.lookup,
          show (x == e.1) = false from
            beq_eq_false_iff_ne.2 (fun hc => he hc.symm),
          ih, if_pos rfl]
      · rw [if_neg hx, List.lookup, List.lookup]
        cases hbe : x == e.1 with
        | true => rfl
        | false => rw [ih, if_neg hx]

theorem splitLoop_sim (ls : List Line) :
    ∀ (i : ℕ) (m₁ m₂ : SecMap) (cur : Option String) (seen : List String),
      (∀ lbl ∈ seen, m₁.lookup lbl = m₂.lookup lbl) →
      (∀ c, cur = some c → c ∈ seen) →
      (∃ e, splitLoop i ls m₁ cur = Except.error e ∧
        splitLoop i ls m₂ cur = Except.error e) ∨
      (∃ r₁ r₂, splitLoop i ls m₁ cur = Except.ok r₁ ∧
        splitLoop i ls m₂ cur = Except.ok r₂ ∧ r₁.2 = r₂.2 ∧
        (∀ c, r₁.2 = some c → c ∈ seen ∨ c ∈ headerLabels ls) ∧
        (∀ lbl, lbl ∈ seen ∨ lbl ∈ headerLabels ls →
          r₁.1.lookup lbl = r₂.1.lookup lbl)) := by
  induction ls with
  | nil =>
    intro i m₁ m₂ cur seen hagree hcur
    refine Or.inr ⟨(m₁, cur), (m₂, cur), rfl, rfl, rfl, ?_, ?_⟩
    · intro c hc
      exact Or.inl (hcur c hc)
    · intro lbl hl
      rcases hl with h | h
      · exact hagree lbl h
      · cases h
  | cons l rest ih =>
    intro i m₁ m₂ cur seen hagree hcur
    cases hc : headerCheck l with
    | error e =>
      exact Or.inl ⟨e, by rw [splitLoop, hc, exceptBindE_error],
        by rw [splitLoop, hc, exceptBindE_error]⟩
    | ok hd =>
      have hlbls : headerLabels (l :: rest) =
          (match hd with | some lbl => lbl :: headerLabels rest
                         | none => headerLabels rest) := by
        cases hd <;> simp [headerLabels, List.filterMap_cons, hc]
      cases hd with
      | none =>
        rw [hlbls]
        have h1 : splitLoop i (l :: rest) m₁ cur = splitLoop (i + 1) rest m₁ cur := by
          rw [splitLoop, hc, exceptBindE_ok]
        have h2 : splitLoop i (l :: rest) m₂ cur = splitLoop (i + 1) rest m₂ cur := by
          rw [splitLoop, hc, exceptBindE_ok]
        rw [h1, h2]
        exact ih (i + 1) m₁ m₂ cur seen hagree hcur
      | some lbl =>
        rw [hlbls]
        have h1 : splitLoop i (l :: rest) m₁ cur =
            splitLoop (i + 1) rest (dictSet (closeAt m₁ cur i) lbl [i + 1]) (some lbl) := by
          rw [splitLoop, hc, exceptBindE_ok]
        have h2 : splitLoop i (l :: rest) m₂ cur =
            splitLoop (i + 1) rest (dictSet (closeAt m₂ cur i) lbl [i + 1]) (some lbl) := by
          rw [splitLoop, hc, exceptBindE_ok]
        rw [h1, h2]
        have hagree' : ∀ x ∈ lbl :: seen,
            (dictSet (closeAt m₁ cur i) lbl [i + 1]).lookup x =
              (dictSet (closeAt m₂ cur i) lbl [i + 1]).lookup x := by
          intro x hx
          rcases List.mem_cons.1 hx with hxe | hxs
          · rw [hxe, lookup_dictSet_self, lookup_dictSet_self]
          · by_cases hxl : x = lbl
            · rw [hxl, lookup_dictSet_self, lookup_dictSet_self]
            · rw [lookup_dictSet_other _ _ _ _ hxl, lookup_dictSet_other _ _ _ _ hxl]
              cases cur with
              | none => exact hagree x hxs
              | some c =>
                rw [show closeAt m₁ (some c) i = dictAppend m₁ c i from rfl,
                  show closeAt m₂ (some c) i = dictAppend m₂ c i from rfl,
                  lookup_dictAppend, lookup_dictAppend]
                by_cases hxc : x = c
                · rw [if_pos hxc, if_pos hxc, hagree c (hcur c rfl)]
                · rw [if_neg hxc, if_neg hxc]
                  exact hagree x hxs
        rcases ih (i + 1) _ _ (some lbl) (lbl :: seen) hagree'
          (fun c hcc => by
            rw [Option.some.inj hcc]
            exact List.mem_cons_self _ _) with
          hleft | ⟨r₁, r₂, e₁, e₂, hsnd, hcseen, hlook⟩
        · exact Or.inl hleft
        · refine Or.inr ⟨r₁, r₂, e₁, e₂, hsnd, ?_, ?_⟩
          · intro c hcc
            rcases hcseen c hcc with hs | hh
            · rcases List.mem_cons.1 hs with he | hs'
              · exact Or.inr (he ▸ List.mem_cons_self _ _)
              · exact Or.inl hs'
            · exact Or.inr (List.mem_cons_of_mem _ hh)
          · intro x hx
            apply hlook
            rcases hx with hs | hh
            · exact Or.inl (List.mem_cons_of_mem _ hs)
            · rcases List.mem_cons.1 hh with he | hh'
              · exact Or.inl (he ▸ List.mem_cons_self _ _)
              · exact Or.inr hh'

theorem splitLoop_carryover (ls : List Line) :
    ∀ (i : ℕ) (m : SecMap) (cur : Option String) (lbl : String)
      (r : SecMap × Option String),
      lbl ∉ headerLabels ls →
      (∀ c, cur = some c → c ≠ lbl) →
      splitLoop i ls m cur = Except.ok r →
      r.1.lookup lbl = m.lookup lbl ∧ (∀ c, r.2 = some c → c ≠ lbl) := by
  induction ls with
  | nil =>
    intro i m cur lbl r _ hcur h
    cases h
    exact ⟨rfl, hcur⟩
  | cons l rest ih =>
    intro i m cur lbl r hnot hcur h
    cases hc : headerCheck l with
    | error e =>
      rw [splitLoop, hc, exceptBindE_error] at h
      cases h
    | ok hd =>
      rw [splitLoop, hc, exceptBindE_ok] at h
      cases hd with
      | none =>
        refine ih (i + 1) m cur lbl r ?_ hcur h
        intro hmem
        exact hnot (by simpa [headerLabels, List.filterMap_cons, hc] using hmem)
      | some lbl' =>
        have hlbls : headerLabels (l :: rest) = lbl' :: headerLabels rest := by
          simp [headerLabels, List.filterMap_cons, hc]
        rw [hlbls] at hnot
        have hne : lbl' ≠ lbl := fun hcontra =>
          hnot (hcontra ▸ List.mem_cons_self _ _)
        have hnotrest : lbl ∉ headerLabels rest := fun hmem =>
          hnot (List.mem_cons_of_mem _ hmem)
        rcases ih (i + 1) _ (some lbl') lbl r hnotrest
          (fun c hcc => (Option.some.inj hcc) ▸ hne) h with ⟨hl, hc2⟩
        refine ⟨?_, hc2⟩
        rw [hl, lookup_dictSet_other _ _ _ _ (fun hcontra => hne hcontra.symm)]
        cases cur with
        | none => rfl
        | some c =>
          rw [show closeAt m (some c) i = dictAppend m c i from rfl,
            lookup_dictAppend, if_neg (fun hcontra => hcur c rfl hcontra.symm)]

theorem tickSections_current (prev : SecMap) (o : List Line) (lbl : String)
    (hl : lbl ∈ headerLabels o) :
    Except.map (fun m => m.lookup lbl) (tickSections prev o) =
      Except.map (fun m => m.lookup lbl) (tickSections [] o) := by
  rcases splitLoop_sim o 0 prev [] none []
    (fun x hx => absurd hx (List.not_mem_nil x))
    (fun c hc => by cases hc) with
    ⟨e, h1, h2⟩ | ⟨r₁, r₂, h1, h2, hsnd, hcseen, hlook⟩
  · rw [tickSections, tickSections, h1, h2]
  · rw [tickSections, tickSections, h1, h2, exceptBindE_ok, exceptBindE_ok, ← hsnd]
    cases hr : r₁.2 with
    | none => rfl
    | some ll =>
      have hll : ll ∈ headerLabels o := by
        rcases hcseen ll hr with hs | hh
        · cases hs
        · exact hh
      dsimp only
      rw [Except.map, Except.map]
      congr 1
      rw [lookup_dictAppend, lookup_dictAppend]
      by_cases hx : lbl = ll
      · rw [if_pos hx, if_pos hx, hlook ll (Or.inr hll)]
      · rw [if_neg hx, if_neg hx, hlook lbl (Or.inr hl)]

theorem tickSections_carryover (prev : SecMap) (o : List Line) (lbl : String)
    (m : SecMap) (hnot : lbl ∉ headerLabels o)
    (h : tickSections prev o = Except.ok m) :
    m.lookup lbl = prev.lookup lbl := by
  rw [tickSections] at h
  cases hsl : splitLoop 0 o prev none with
  | error e => rw [hsl, exceptBindE_error] at h; cases h
  | ok mc =>
    rw [hsl, exceptBindE_ok] at h
    rcases splitLoop_carryover o 0 prev none lbl mc hnot (fun c hc => by cases hc) hsl
      with ⟨hlook, hcur⟩
    cases hmc : mc.2 with
    | none => rw [hmc] at h; cases h
    | some ll =>
      rw [hmc] at h
      dsimp only at h
      cases h
      rw [lookup_dictAppend, if_neg (fun hcontra => hcur ll hmc hcontra.symm), hlook]

/-- Counterexample to claim C8 as stated: `section_ranges` is created once
before the sampling loop and reused, so after a first tick with CPU and DEV
sections, a second tick whose two lines contain only a CPU section still
yields a dict holding DEV's stale range [3, 4] from the first tick — the
ranges handed to the extractors are not a function of the current tick's
lines alone. -/
theorem C8_counterexample_stale_entry :
    tickSections [] [["Average:", "CPU"], ["x"], ["Average:", "DEV"], ["row"]] =
      Except.ok [("CPU", [1, 2]), ("DEV", [3, 4])] ∧
    tickSections [("CPU", [1, 2]), ("DEV", [3, 4])] [["Average:", "CPU"], ["y"]] =
      Except.ok [("CPU", [1, 2]), ("DEV", [3, 4])] ∧
    tickSections [] [["Average:", "CPU"], ["y"]] = Except.ok [("CPU", [1, 2])] ∧
    (Except.ok [("CPU", [1, 2]), ("DEV", [3, 4])] ≠
      (Except.ok [("CPU", [1, 2])] : Except PyErr SecMap)) := by
  refine ⟨by decide, by decide, by decide, by decide⟩

/-- Claim C8 as amended: the section dict persists across ticks; a label
that has a header in the current tick's lines gets a range determined by
the current tick alone (the same as a fresh-dict run would produce), while
a label with no header in the current tick keeps whatever entry the dict
carried from earlier ticks. -/
theorem C8_amended_dict_persists_across_ticks :
    (∀ (prev : SecMap) (o : List Line) (lbl : String),
      lbl ∈ headerLabels o →
      Except.map (fun m => m.lookup lbl) (tickSections prev o) =
        Except.map (fun m => m.lookup lbl) (tickSections [] o)) ∧
    (∀ (prev : SecMap) (o : List Line) (lbl : String) (m : SecMap),
      lbl ∉ headerLabels o → tickSections prev o = Except.ok m →
      m.lookup lbl = prev.lookup lbl) :=
  ⟨fun prev o lbl hl => tickSections_current prev o lbl hl,
   fun prev o lbl m hnot h => tickSections_carryover prev o lbl m hnot h⟩

/-- Witness for the amended C8 at the counterexample's inputs: CPU (headed
in the current tick) gets the fresh range, DEV (not headed) carries over. -/
theorem C8_amended_dict_persists_across_ticks_witness :
    Except.map (fun m => List.lookup "CPU" m)
        (tickSections [("CPU", [9, 9]), ("DEV", [3, 4])] [["Average:", "CPU"], ["y"]]) =
      Except.map (fun m => List.lookup "CPU" m)
        (tickSections [] [["Average:", "CPU"], ["y"]]) ∧
    List.lookup "DEV" [("CPU", [1, 2]), ("DEV", [3, 4])] =
      List.lookup "DEV" [("CPU", [9, 9]), ("DEV", [3, 4])] := by
  constructor
  · exact C8_amended_dict_persists_across_ticks.1
      [("CPU", [9, 9]), ("DEV", [3, 4])] [["Average:", "CPU"], ["y"]] "CPU" (by decide)
  · exact C8_amended_dict_persists_across_ticks.2
      [("CPU", [9, 9]), ("DEV", [3, 4])] [["Average:", "CPU"], ["y"]] "DEV"
      [("CPU", [1, 2]), ("DEV", [3, 4])] (by decide) (by decide)

/-!
### CPU, network and NFS extractors (perf_monitor.py lines 147-179, 208-244)
-/

/-- `re.search(pat, line)` for a plain-text pattern: the pattern occurs
somewhere in the raw line, i.e. inside some token (the patterns used,
`all`, `Average:` and interface names, contain no whitespace). -/
def lineContainsSub (pat : String) (l : Line) : Bool :=
  l.any (fun t => decide (pat.data.IsInfix t.data))

/-- `for i in range(*v): if p(o[i]): fields = o[i].split(); ...; break` —
find the first line of the range satisfying the predicate. -/
def findRowLoop (p : Line → Bool) (o : List Line) : ℕ → ℕ → Except PyErr (Option Line)
  | _, 0 => Except.ok none
  | i, n + 1 =>
    Except.bind (pyIndex o i) (fun l =>
      if p l then Except.ok (some l) else findRowLoop p o (i + 1) n)

/-- The seven values `cpu` returns. -/
structure CpuRecord where
  user : ℚ
  system : ℚ
  iowait : ℚ
  idle : ℚ
  run_q_len : ℚ
  load5 : ℚ
  blocked : ℚ
  deriving DecidableEq, Repr

/-- `cpu(v1, v2, o)` (perf_monitor.py lines 147-179): the `all`-CPU row of
the CPU section gives the rounded user/system/iowait/idle percentages, the
first non-blank row of the run-queue section gives run-queue length, the
5-minute load average and the blocked-task count; missing rows leave the
corresponding values at `0.0`. -/
def KPIAggregator.cpu (st : String → ℚ × ℚ) (v1 v2 : ℕ × ℕ) (o : List Line) :
    Except PyErr ((String → ℚ × ℚ) × CpuRecord) :=
  Except.bind (findRowLoop (lineContainsSub "all") o v1.1 (v1.2 - v1.1)) (fun row1 =>
  Except.bind
    (match row1 with
     | none => Except.ok ((0 : ℚ), (0 : ℚ), (0 : ℚ), (0 : ℚ))
     | some fields =>
       Except.bind (pyFloatAt fields 2) (fun f2 =>
       Except.bind (pyFloatAt fields 4) (fun f4 =>
       Except.bind (pyFloatAt fields 5) (fun f5 =>
       Except.bind (pyFloatAt fields 7) (fun f7 =>
       Except.ok (((pyRound f2 : ℤ) : ℚ), ((pyRound f4 : ℤ) : ℚ),
         ((pyRound f5 : ℤ) : ℚ), ((pyRound f7 : ℤ) : ℚ)))))))
    (fun uc =>
  Except.bind (findRowLoop (fun l => !l.isEmpty) o v2.1 (v2.2 - v2.1)) (fun row2 =>
  Except.bind
    (match row2 with
     | none => Except.ok ((0 : ℚ), (0 : ℚ), (0 : ℚ))
     | some fields =>
       Except.bind (pyIntAt fields 1) (fun i1 =>
       Except.bind (pyFloatAt fields 4) (fun f4 =>
       Except.bind (pyIntAt fields 6) (fun i6 =>
       Except.ok ((i1 : ℚ), f4, (i6 : ℚ))))))
    (fun rc =>
  Except.ok
    (KPIAggregator.set_min_max st
      [("iowait", uc.2.2.1), ("idle", uc.2.2.2), ("user", uc.1),
       ("system", uc.2.1), ("run_q_len", rc.1), ("load5", rc.2.1),
       ("blocked", rc.2.2)],
     ⟨uc.1, uc.2.1, uc.2.2.1, uc.2.2.2, rc.1, rc.2.1, rc.2.2⟩)))))

/-- The two values `network` returns. -/
structure NetRecord where
  rx : ℚ
  tx : ℚ
  deriving DecidableEq, Repr

/-- `network(v, o)` (perf_monitor.py lines 208-224): the first row of the
interface section mentioning the interface name gives receive/transmit
throughput, converted from KB/s to MB/s and rounded. -/
def KPIAggregator.network (noName : String) (st : String → ℚ × ℚ)
    (v : ℕ × ℕ) (o : List Line) :
    Except PyErr ((String → ℚ × ℚ) × NetRecord) :=
  Except.bind (findRowLoop (lineContainsSub noName) o v.1 (v.2 - v.1)) (fun row =>
  Except.bind
    (match row with
     | none => Except.ok ((0 : ℚ), (0 : ℚ))
     | some fields =>
       Except.bind (pyFloatAt fields 4) (fun f4 =>
       Except.bind (pyFloatAt fields 5) (fun f5 =>
       Except.ok (((pyRound (qDiv f4 1024) : ℤ) : ℚ),
         ((pyRound (qDiv f5 1024) : ℤ) : ℚ)))))
    (fun p =>
  Except.ok
    (KPIAggregator.set_min_max st [("rx", p.1), ("tx", p.2)], ⟨p.1, p.2⟩)))

/-- The three values `nfsd` returns. -/
structure NfsRecord where
  tcalls : ℚ
  rcalls : ℚ
  wcalls : ℚ
  deriving DecidableEq, Repr

/-- `nfsd(v, o)` (perf_monitor.py lines 226-244): the first `Average:` row
of the NFS section gives total/read/write RPC calls per second, rounded. -/
def KPIAggregator.nfsd (st : String → ℚ × ℚ) (v : ℕ × ℕ) (o : List Line) :
    Except PyErr ((String → ℚ × ℚ) × NfsRecord) :=
  Except.bind (findRowLoop (lineContainsSub "Average:") o v.1 (v.2 - v.1)) (fun row =>
  Except.bind
    (match row with
     | none => Except.ok ((0 : ℚ), (0 : ℚ), (0 : ℚ))
     | some fields =>
       Except.bind (pyFloatAt fields 1) (fun f1 =>
       Except.bind (pyFloatAt fields 8) (fun f8 =>
       Except.bind (pyFloatAt fields 9) (fun f9 =>
       Except.ok (((pyRound f1 : ℤ) : ℚ), ((pyRound f8 : ℤ) : ℚ),
         ((pyRound f9 : ℤ) : ℚ))))))
    (fun p =>
  Except.ok
    (KPIAggregator.set_min_max st
      [("tcalls", p.1), ("rcalls", p.2.1), ("wcalls", p.2.2)],
     ⟨p.1, p.2.1, p.2.2⟩)))

/-!
### One full perf_monitor tick (`main` loop body, lines 281-317)
-/

/-- `range(*v)` over a dict value: the stored `[start, end]` pair (a value
of any other shape would make `range(*v)` raise a TypeError; after the
splitter closes a section, every entry holds exactly two indices). -/
def rangePair (v : List ℕ) : Except PyErr (ℕ × ℕ) :=
  match v with
  | [s, e] => Except.ok (s, e)
  | _ => Except.error PyErr.typeError

/-- `section_ranges[label]` followed by `range(*...)` in the extractor. -/
def dictGetRange (secs : SecMap) (k : String) : Except PyErr (ℕ × ℕ) :=
  Except.bind (dictGet secs k) rangePair

/-- The per-tick records of all five extractors, in call order. -/
structure TickRecord where
  cpu : CpuRecord
  iostats : DiskIORecord
  mem : MemSwapRecord
  nfsd : NfsRecord
  net : NetRecord
  deriving DecidableEq, Repr

/-- The extractor calls of one tick (perf_monitor.py lines 309-313), with
each `section_ranges[...]` subscript raising KeyError when the label is
absent from the dict. -/
def processTick (kbt : Option ℚ) (st : String → ℚ × ℚ) (secs : SecMap)
    (noName : String) (dnames : List String) (o : List Line) :
    Except PyErr (Option ℚ × (String → ℚ × ℚ) × TickRecord) :=
  Except.bind (dictGetRange secs "CPU") (fun vCPU =>
  Except.bind (dictGetRange secs "runq-sz") (fun vRQ =>
  Except.bind (KPIAggregator.cpu st vCPU vRQ o) (fun cpuR =>
  Except.bind (dictGetRange secs "DEV") (fun vDEV =>
  Except.bind (KPIAggregator.disk_io dnames cpuR.1 vDEV o) (fun ioR =>
  Except.bind (dictGetRange secs "kbmemfree") (fun vMem =>
  Except.bind (dictGetRange secs "kbswpfree") (fun vSwp =>
  Except.bind (KPIAggregator.mem_swap kbt ioR.1 vMem vSwp o) (fun memR =>
  Except.bind (dictGetRange secs "scall/s") (fun vNfs =>
  Except.bind (KPIAggregator.nfsd memR.2.1 vNfs o) (fun nfsR =>
  Except.bind (dictGetRange secs "IFACE") (fun vIf =>
  Except.bind (KPIAggregator.network noName nfsR.1 vIf o) (fun netR =>
  Except.ok (memR.1, netR.1, ⟨cpuR.2, ioR.2, memR.2.2, nfsR.2, netR.2⟩)))))))))))))

/-- One whole loop iteration: split the tick's lines (updating the
persistent dict), then run the extractors. -/
def perfTick (kbt : Option ℚ) (st : String → ℚ × ℚ) (secs : SecMap)
    (noName : String) (dnames : List String) (o : List Line) :
    Except PyErr (SecMap × Option ℚ × (String → ℚ × ℚ) × TickRecord) :=
  Except.bind (tickSections secs o) (fun secs2 =>
  Except.bind (processTick kbt st secs2 noName dnames o) (fun r =>
  Except.ok (secs2, r)))

/-- The error of a result, discarding any success value. -/
def exceptErr {α : Type} : Except PyErr α → Option PyErr
  | Except.error e => some e
  | Except.ok _ => none

/-!
### Claim C7 (missing sections: what actually happens)
-/

/-- Counterexample to claim C7 as stated: a tick with no header markers
makes the splitter subscript `section_ranges[None]`, an uncaught KeyError
that kills the session (not a recoverable, non-fatal ParseError); and a
tick whose output lacks a queried section label (here everything except
CPU) makes the extractor-call block raise KeyError instead of producing a
zero-valued record. -/
theorem C7_counterexample_missing_section_raises :
    tickSections [] [["foo"]] = Except.error PyErr.keyError ∧
    exceptErr (perfTick none KPIAggregator.initState [] "eth0" ["sda"]
      [["Average:", "CPU"]]) = some PyErr.keyError := by
  refine ⟨by decide, by decide⟩

open KPIAggregator in
/-- Claim C7 as amended: a tick with no header markers at all raises an
uncaught KeyError (fatal to the session); an extractor-call block querying
a label absent from the dict raises KeyError rather than returning a
zero-valued record; the zero/unavailable behaviour exists only one level
lower — an extractor whose (present) ranges contain no matching row
returns a record with zero-valued fields. -/
theorem C7_amended_missing_section_key_error :
    (∀ (prev : SecMap) (o : List Line),
      (∀ l ∈ o, headerCheck l = Except.ok none) →
      tickSections prev o = Except.error PyErr.keyError) ∧
    (∀ (kbt : Option ℚ) (st : String → ℚ × ℚ) (secs : SecMap)
        (noName : String) (dnames : List String) (o : List Line),
      secs.lookup "CPU" = none →
      processTick kbt st secs noName dnames o = Except.error PyErr.keyError) ∧
    (∀ (st : String → ℚ × ℚ) (v1 v2 : ℕ × ℕ) (o : List Line),
      findRowLoop (lineContainsSub "all") o v1.1 (v1.2 - v1.1) = Except.ok none →
      findRowLoop (fun l => !l.isEmpty) o v2.1 (v2.2 - v2.1) = Except.ok none →
      cpu st v1 v2 o =
        Except.ok
          (set_min_max st
            [("iowait", 0), ("idle", 0), ("user", 0), ("system", 0),
             ("run_q_len", 0), ("load5", 0), ("blocked", 0)],
           ⟨0, 0, 0, 0, 0, 0, 0⟩)) := by
  refine ⟨?_, ?_, ?_⟩
  · intro prev o hno
    rw [tickSections, splitLoop_all_skip o hno 0 prev none, exceptBindE_ok]
  · intro kbt st secs noName dnames o hcpu
    rw [processTick,
      show dictGetRange secs "CPU" = Except.error PyErr.keyError from by
        rw [dictGetRange, dictGet, hcpu, exceptBindE_error],
      exceptBindE_error]
  · intro st v1 v2 o h1 h2
    rw [cpu, h1, exceptBindE_ok]
    dsimp only
    rw [exceptBindE_ok, h2, exceptBindE_ok]
    rfl

/-- Witness for the amended C7: a header-free tick raises KeyError even
with a populated carry-over dict, and the CPU extractor on ranges with no
matching rows returns the all-zero record. -/
theorem C7_amended_missing_section_key_error_witness :
    tickSections [("CPU", [1, 2])] [["x"], ["y"]] = Except.error PyErr.keyError ∧
    KPIAggregator.cpu KPIAggregator.initState (0, 1) (1, 1) [["nope"]] =
      Except.ok
        (KPIAggregator.set_min_max KPIAggregator.initState
          [("iowait", 0), ("idle", 0), ("user", 0), ("system", 0),
           ("run_q_len", 0), ("load5", 0), ("blocked", 0)],
         ⟨0, 0, 0, 0, 0, 0, 0⟩) := by
  constructor
  · exact C7_amended_missing_section_key_error.1 [("CPU", [1, 2])] [["x"], ["y"]]
      (by decide)
  · exact C7_amended_missing_section_key_error.2.2 KPIAggregator.initState
      (0, 1) (1, 1) [["nope"]] (by decide) (by decide)

/-!
### Daily log file (perf_monitor.py `main`, lines 296-317)

The log file for the current calendar day is opened in mode `'w'` only
when it does not exist yet, `'a'` otherwise, and the header row is written
only in the `'w'` case.  The filesystem is modelled as an association list
from file name to file content.
-/

/-- The header row exactly as perf_monitor.py lines 303-307 write it
(including its typos `run_q_lenth` and `rcp writes/sec`, the duplicated
`iowait` column name, and the spaces inside the RPC column names). -/
def logHeader : String :=
  "Time,%user,%system,%iowait,%idle,run_q_lenth,load5,blocked,iops,throughput,request_size,queue_length,iowait,bandwidth_util,%memused,%memcached,%swapused,rpc calls/sec, rpc reads/sec, rcp writes/sec,rx_MB/sec,tx_MB/sec\n"

/-- The header row the claim asserts. -/
def specClaimedHeader : String :=
  "Time,%user,%system,%iowait,%idle,run_q_length,load5,blocked,iops,throughput,request_size,queue_length,wait,bandwidth_util,%memused,%memcached,%swapused,rpc_calls_sec,rpc_reads_sec,rpc_writes_sec,rx_MB_sec,tx_MB_sec"

/-- `d[k] = v` over the modelled filesystem. -/
def filesSet : List (String × String) → String → String → List (String × String)
  | [], k, v => [(k, v)]
  | e :: rest, k, v =>
    if e.1 = k then (k, v) :: rest else e :: filesSet rest k v

/-- Lines 298-307 and 314-317 for one tick: create the day's file with the
header followed by the data row when it does not exist; append just the
data row when it does.  The file is never truncated (`'w'` is only used on
a file that does not exist). -/
def logWriteTick (files : List (String × String)) (fname row : String) :
    List (String × String) :=
  match files.lookup fname with
  | some content => filesSet files fname (content ++ row)
  | none => filesSet files fname (logHeader ++ row)

/-- Writing one data row per tick over a whole day. -/
def logWriteMany (files : List (String × String)) (fname : String)
    (rows : List String) : List (String × String) :=
  rows.foldl (fun fs row => logWriteTick fs fname row) files

/-- The data row of one tick: the timestamp followed by one comma-prefixed
field per value (lines 314-317). -/
def renderRow (tstr : String) (vals : List String) : String :=
  tstr ++ String.join (vals.map (fun s => "," ++ s)) ++ "\n"

/-- The 21 numeric values of a tick in the order they are written
(cpu ++ iostats ++ mem ++ nfsd ++ net, line 315). -/
def tickValues (r : TickRecord) : List ℚ :=
  [r.cpu.user, r.cpu.system, r.cpu.iowait, r.cpu.idle, r.cpu.run_q_len,
   r.cpu.load5, r.cpu.blocked,
   (r.iostats.iops : ℚ), (r.iostats.tp : ℚ), (r.iostats.req_size : ℚ),
   (r.iostats.q_len : ℚ), (r.iostats.wait : ℚ), (r.iostats.bw_util : ℚ),
   r.mem.memused, r.mem.memcached, r.mem.swapused,
   r.nfsd.tcalls, r.nfsd.rcalls, r.nfsd.wcalls,
   r.net.rx, r.net.tx]

theorem lookup_filesSet_self (m : List (String × String)) (k v : String) :
    (filesSet m k v).lookup k = some v := by
  induction m with
  | nil => simp [filesSet, List.lookup]
  | cons e rest ih =>
    rw [filesSet]
    by_cases he : e.1 = k
    · rw [if_pos he]
      simp [List.lookup]
    · rw [if_neg he, List.lookup,
        show (k == e.1) = false from beq_eq_false_iff_ne.2 (fun hc => he hc.symm)]
      exact ih

theorem lookup_filesSet_other (m : List (String × String)) (k v x : String)
    (h : x ≠ k) : (filesSet m k v).lookup x = m.lookup x := by
  induction m with
  | nil => simp [filesSet, List.lookup, beq_eq_false_iff_ne.2 h]
  | cons e rest ih =>
    rw [filesSet]
    by_cases he : e.1 = k
    · rw [if_pos he, List.lookup, List.lookup,
        show (x == k) = false from beq_eq_false_iff_ne.2 h,
        show (x == e.1) = false from beq_eq_false_iff_ne.2 (he ▸ h)]
    · rw [if_neg he, List.lookup, List.lookup]
      cases hbe : x == e.1 with
      | true => rfl
      | false => exact ih

/-!
### Claim C9 (daily log header)
-/

set_option maxRecDepth 4096 in
/-- Counterexample to claim C9 as stated: the day's first write does write
a header exactly once, but its text differs from the claimed header row
(the code writes `run_q_lenth`, a second `iowait` where the claim says
`wait`, `rpc calls/sec, rpc reads/sec, rcp writes/sec` and `rx_MB/sec`,
`tx_MB/sec`), so the file's first line is not the claimed header. -/
theorem C9_counterexample_header_text_differs :
    logWriteTick [] "perf.09-01-2025.txt" "r\n" =
      [("perf.09-01-2025.txt", logHeader ++ "r\n")] ∧
    ¬ specClaimedHeader.data.isPrefixOf (logHeader ++ "r\n").data := by
  refine ⟨by decide, by decide⟩

theorem string_foldl_append (rows : List String) :
    ∀ c : String, rows.foldl (fun acc r => acc ++ r) c = c ++ String.join rows := by
  induction rows with
  | nil =>
    intro c
    rw [List.foldl_nil]
    simp [String.join]
  | cons r rest ih =>
    intro c
    have hj : String.join (r :: rest) = r ++ String.join rest := by
      rw [String.join, List.foldl_cons]
      rw [show ("" ++ r : String) = r by simp]
      exact ih r
    rw [List.foldl_cons, ih (c ++ r), hj, String.append_assoc]

set_option maxRecDepth 4096 in
/-- Claim C9 as amended: the first write to a day's (non-existent) file
writes the actual header row exactly once followed by the tick's data row;
if the day's file already exists (e.g. a restart mid-day), data rows are
appended without rewriting the header and without truncation; over a day
the content is the header followed by one data row per tick; the data row
is the timestamp plus 21 comma-prefixed fields, matching the actual
header's 22 columns. -/
theorem C9_amended_daily_log_header_once (files : List (String × String))
    (fname : String) :
    (files.lookup fname = none → ∀ row,
      (logWriteTick files fname row).lookup fname = some (logHeader ++ row)) ∧
    (∀ c, files.lookup fname = some c → ∀ row,
      (logWriteTick files fname row).lookup fname = some (c ++ row)) ∧
    (∀ c rows, files.lookup fname = some c →
      (logWriteMany files fname rows).lookup fname =
        some (c ++ String.join rows)) ∧
    (files.lookup fname = none → ∀ row rows,
      (logWriteMany files fname (row :: rows)).lookup fname =
        some ((logHeader ++ row) ++ String.join rows)) ∧
    ((logHeader.data.splitOn ',').length = 22 ∧
      ∀ r : TickRecord, (tickValues r).length = 21) := by
  have hsome : ∀ (fs : List (String × String)) (c : String),
      fs.lookup fname = some c → ∀ row,
      (logWriteTick fs fname row).lookup fname = some (c ++ row) := by
    intro fs c hc row
    rw [logWriteTick, hc, lookup_filesSet_self]
  have hnone : ∀ (fs : List (String × String)),
      fs.lookup fname = none → ∀ row,
      (logWriteTick fs fname row).lookup fname = some (logHeader ++ row) := by
    intro fs hn row
    rw [logWriteTick, hn, lookup_filesSet_self]
  have hfold : ∀ (rows : List String) (fs : List (String × String)) (c : String),
      fs.lookup fname = some c →
      (logWriteMany fs fname rows).lookup fname =
        some (rows.foldl (fun acc r => acc ++ r) c) := by
    intro rows
    induction rows with
    | nil =>
      intro fs c hc
      rw [logWriteMany, List.foldl_nil, List.foldl_nil, hc]
    | cons row rest ih =>
      intro fs c hc
      rw [logWriteMany, List.foldl_cons, List.foldl_cons]
      exact ih (logWriteTick fs fname row) (c ++ row) (hsome fs c hc row)
  refine ⟨hnone files, fun c hc => hsome files c hc, ?_, ?_, by decide, fun r => rfl⟩

  · intro c rows hc
    rw [hfold rows files c hc, string_foldl_append rows c]
  · intro hn row rows
    rw [logWriteMany, List.foldl_cons,
      show List.foldl (fun fs row => logWriteTick fs fname row)
        (logWriteTick files fname row) rows =
        logWriteMany (logWriteTick files fname row) fname rows from rfl,
      hfold rows _ (logHeader ++ row) (hnone files hn row),
      string_foldl_append rows (logHeader ++ row)]

/-- Witness for the amended C9: a fresh day followed by two ticks yields
header then the two rows; a pre-existing file only gets the row appended. -/
theorem C9_amended_daily_log_header_once_witness :
    (logWriteMany [] "perf.txt" ["r1\n", "r2\n"]).lookup "perf.txt" =
      some ((logHeader ++ "r1\n") ++ String.join ["r2\n"]) ∧
    (logWriteTick [("perf.txt", "old")] "perf.txt" "r3\n").lookup "perf.txt" =
      some ("old" ++ "r3\n") := by
  constructor
  · exact (C9_amended_daily_log_header_once [] "perf.txt").2.2.2.1 rfl "r1\n" ["r2\n"]
  · exact (C9_amended_daily_log_header_once [("perf.txt", "old")] "perf.txt").2.1
      "old" (by decide) "r3\n"
